import Mathlib

/-!
Verification of Lib/traceback.py (diagnostic rendering engine).

This file gives a shallow embedding in Lean 4 of the data model and
operations of the traceback module: byte-to-character offset conversion,
stack extraction with its limit policy, repeated-frame collapsing in
StackSummary.format, the caret-anchor extraction, the Levenshtein-based
suggestion search, TracebackException construction (cycle handling) and
chained/grouped exception formatting, and SyntaxError rendering.

Strings are Lean Strings (sequences of Unicode scalar values, matching
Python str); machine integers are modelled as Nat or Int; fallible
operations return Option or Except.  External collaborators (the ast
parser, linecache, live frame objects) are modelled as inputs.
-/

set_option maxRecDepth 10000

/-! ## Python string primitives used by the module -/

/-- Python str.isspace restricted to the ASCII whitespace characters
relevant to this code (space, tab, newline, CR, VT, FF). -/
def pyIsSpace (c : Char) : Bool :=
  c = ' ' || c = '\t' || c = '\n' || c = '\x0d' || c = '\x0b' || c = '\x0c'

/-- Python str.rstrip() with no argument: drop trailing whitespace. -/
def pyRstrip (s : String) : String :=
  ⟨(s.data.reverse.dropWhile (fun c => pyIsSpace c)).reverse⟩

/-- Python str.rstrip(chars): drop trailing characters from the given set. -/
def pyRstripSet (s : String) (set : List Char) : String :=
  ⟨(s.data.reverse.dropWhile (fun c => set.contains c)).reverse⟩

/-- Python str.lstrip(chars): drop leading characters from the given set. -/
def pyLstripSet (s : String) (set : List Char) : String :=
  ⟨s.data.dropWhile (fun c => set.contains c)⟩

/-- Python str.lstrip() with no argument. -/
def pyLstrip (s : String) : String :=
  ⟨s.data.dropWhile (fun c => pyIsSpace c)⟩

/-- Python str.splitlines() for strings whose only line terminator is
the newline character. -/
def pySplitlines (s : String) : List String :=
  if s = "" then []
  else
    let p := s.splitOn "\n"
    if p.getLast? = some "" then p.dropLast else p

/-- Helper for splitting a string into lines that keep their trailing
newline (Python splitlines(keepends=True)). -/
def splitKeepEndsAux : List Char → List Char → List String
  | [], acc => if acc.isEmpty then [] else [⟨acc.reverse⟩]
  | c :: rest, acc =>
    if c = '\n' then (⟨(c :: acc).reverse⟩ : String) :: splitKeepEndsAux rest []
    else splitKeepEndsAux rest (c :: acc)

/-- Python str.splitlines(keepends=True) for newline-terminated strings. -/
def splitKeepEnds (s : String) : List String :=
  splitKeepEndsAux s.data []

/-- textwrap.indent(text, pre, lambda line: True): prepend the given
string to every line of the text, including empty lines. -/
def textIndent (pre : String) (s : String) : String :=
  String.join ((splitKeepEnds s).map (fun l => pre ++ l))

theorem string_join_cons (a : String) (L : List String) :
    String.join (a :: L) = a ++ String.join L := by
  have key : ∀ (M : List String) (x : String),
      List.foldl (fun r s => r ++ s) x M = x ++ String.join M := by
    intro M
    induction M with
    | nil => intro x; simp [String.join, List.foldl]
    | cons y ys ih =>
      intro x
      simp only [String.join, List.foldl] at *
      rw [ih (x ++ y), ih ("" ++ y)]
      have h0 : "" ++ y = y := by
        apply congrArg String.mk
        show ("" ++ y).data = y.data
        simp [String.data_append]
      rw [h0, String.append_assoc]
  simp only [String.join, List.foldl]
  rw [key (L) ("" ++ a)]
  have h0 : "" ++ a = a := by
    apply congrArg String.mk
    show ("" ++ a).data = a.data
    simp [String.data_append]
  rw [h0]
  rfl

theorem splitKeepEndsAux_join (l : List Char) :
    ∀ acc, String.join (splitKeepEndsAux l acc) = ⟨acc.reverse ++ l⟩ := by
  induction l with
  | nil =>
    intro acc
    by_cases h : acc.isEmpty
    · have : acc = [] := by cases acc <;> simp_all [List.isEmpty]
      subst this
      simp [splitKeepEndsAux, String.join]
    · simp only [splitKeepEndsAux, h, if_false, Bool.false_eq_true]
      rw [string_join_cons]
      have hj : String.join ([] : List String) = "" := by simp [String.join]
      rw [hj]
      apply congrArg String.mk
      show ((⟨acc.reverse⟩ : String) ++ "").data = acc.reverse ++ []
      simp [String.data_append]
  | cons c rest ih =>
    intro acc
    by_cases h : c = '\n'
    · subst h
      rw [splitKeepEndsAux, if_pos rfl, string_join_cons, ih []]
      apply congrArg String.mk
      show ((⟨('\n' :: acc).reverse⟩ : String) ++ (⟨rest⟩ : String)).data
          = acc.reverse ++ '\n' :: rest
      simp [String.data_append]
    · rw [splitKeepEndsAux, if_neg h, ih (c :: acc)]
      apply congrArg String.mk
      simp

theorem textIndent_empty (s : String) : textIndent "" s = s := by
  rw [textIndent]
  have h : ∀ L : List String, (L.map (fun l => "" ++ l)) = L := by
    intro L; induction L with
    | nil => rfl
    | cons x xs ih =>
      simp only [List.map, ih]
      have h0 : "" ++ x = x := by
        apply congrArg String.mk
        show ("" ++ x).data = x.data
        simp [String.data_append]
      rw [h0]
  rw [h, splitKeepEnds, splitKeepEndsAux_join]
  rfl

/-! ## 4.1 Source Segment Locator: _byte_offset_to_character_offset -/

/-- Number of bytes in the UTF-8 encoding of one character. -/
def utf8Width (c : Char) : Nat :=
  if c.toNat < 0x80 then 1
  else if c.toNat < 0x800 then 2
  else if c.toNat < 0x10000 then 3
  else 4

theorem utf8Width_pos (c : Char) : 1 ≤ utf8Width c := by
  unfold utf8Width
  split <;> [skip; split] <;> [decide; skip; split] <;> decide

/-- Length of `bytes(utf8(chars))[:offset].decode("utf-8", errors="replace")`:
the characters whose encodings fit wholly inside the byte prefix, plus a
single replacement character when the prefix ends inside a multi-byte
sequence (CPython decodes a truncated final sequence as one U+FFFD). -/
def decodedPrefixLen : List Char → Nat → Nat
  | _, 0 => 0
  | [], _ + 1 => 0
  | c :: rest, off + 1 =>
    if utf8Width c ≤ off + 1 then 1 + decodedPrefixLen rest (off + 1 - utf8Width c)
    else 1

/-- Embedding of _byte_offset_to_character_offset (traceback.py lines 634-636). -/
def byte_offset_to_character_offset (s : String) (offset : Nat) : Nat :=
  decodedPrefixLen s.data offset

theorem decodedPrefixLen_le (l : List Char) : ∀ off, decodedPrefixLen l off ≤ off := by
  induction l with
  | nil => intro off; cases off <;> simp [decodedPrefixLen]
  | cons c rest ih =>
    intro off
    cases off with
    | zero => simp [decodedPrefixLen]
    | succ n =>
      rw [decodedPrefixLen]
      split
      · rename_i h
        have h1 := utf8Width_pos c
        have := ih (n + 1 - utf8Width c)
        omega
      · omega

/-- ASCII string: every character is below 128. -/
def isAsciiStr (s : String) : Prop := ∀ c ∈ s.data, c.toNat < 128

instance (s : String) : Decidable (isAsciiStr s) := by
  unfold isAsciiStr; infer_instance

theorem decodedPrefixLen_ascii (l : List Char) (hAscii : ∀ c ∈ l, c.toNat < 128) :
    ∀ off, off ≤ l.length → decodedPrefixLen l off = off := by
  induction l with
  | nil =>
    intro off hoff
    have : off = 0 := by simpa using hoff
    subst this
    rfl
  | cons c rest ih =>
    intro off hoff
    cases off with
    | zero => simp [decodedPrefixLen]
    | succ n =>
      have hlt : c.toNat < 128 := hAscii c (by simp)
      have hc : utf8Width c = 1 := by
        unfold utf8Width
        rw [if_pos (by omega)]
      rw [decodedPrefixLen]
      rw [if_pos (by rw [hc]; omega)]
      rw [hc]
      have h1 : n + 1 - 1 = n := by omega
      rw [h1, ih (fun c hc => hAscii c (by simp [hc])) n (by simpa using hoff)]
      omega

/-- C5 counterexample input: the ASCII line "ab" with byte offset 3.
Python: len(b"ab"[:3].decode("utf-8", "replace")) == 2, not 3. -/
theorem c5_ascii_counterexample :
    byte_offset_to_character_offset "ab" 3 ≠ 3 := by decide

/-- C5 (amended): for every line and byte offset the result is at most the
offset (and trivially nonnegative); on a pure-ASCII line the result equals
the offset whenever the offset does not exceed the byte length of the line
(for larger offsets the whole line is decoded, so the result is the line
length, strictly below the offset). -/
theorem c5_byte_offset_bounds :
    (∀ (line : String) (offset : Nat),
        byte_offset_to_character_offset line offset ≤ offset) ∧
    (∀ (line : String) (offset : Nat), isAsciiStr line →
        offset ≤ line.data.length →
        byte_offset_to_character_offset line offset = offset) := by
  constructor
  · intro line offset
    exact decodedPrefixLen_le line.data offset
  · intro line offset hA hle
    exact decodedPrefixLen_ascii line.data hA offset hle

/-- Witness for c5_byte_offset_bounds at line "x +" and offset 2. -/
theorem c5_byte_offset_bounds_witness :
    byte_offset_to_character_offset "x +" 2 ≤ 2 ∧
    byte_offset_to_character_offset "x +" 2 = 2 :=
  ⟨c5_byte_offset_bounds.1 "x +" 2,
   c5_byte_offset_bounds.2 "x +" 2 (by decide) (by decide)⟩

/-! ## 4.2 Frame model -/

/-- textwrap.dedent building blocks: a line made only of spaces and tabs
(the MULTILINE regex [ \t]+$ used by textwrap). -/
def isWsOnlyLine (l : String) : Bool :=
  l ≠ "" && l.data.all (fun c => c = ' ' || c = '\t')

/-- Leading space/tab run of a line. -/
def leadingWs (l : String) : String :=
  ⟨l.data.takeWhile (fun c => c = ' ' || c = '\t')⟩

/-- Longest common character prefix of two lists. -/
def commonPre : List Char → List Char → List Char
  | x :: xs, y :: ys => if x = y then x :: commonPre xs ys else []
  | _, _ => []

/-- The margin computation of textwrap.dedent: fold the per-line indents. -/
def dedentMargin (indents : List String) : String :=
  (indents.foldl
    (fun acc ind =>
      match acc with
      | none => some ind
      | some m =>
        if ind.startsWith m then some m
        else if m.startsWith ind then some ind
        else some ⟨commonPre m.data ind.data⟩)
    none).getD ""

/-- textwrap.dedent: blank out whitespace-only lines, compute the common
leading space/tab margin of the remaining lines, and strip it. -/
def dedent (text : String) : String :=
  let lines := text.splitOn "\n"
  let lines := lines.map (fun l => if isWsOnlyLine l then "" else l)
  let indents := (lines.filter (fun l => l ≠ "")).map leadingWs
  let margin := dedentMargin indents
  let lines :=
    if margin = "" then lines
    else lines.map (fun l => if l.startsWith margin then l.drop margin.length else l)
  String.intercalate "\n" lines

/-- FrameSummary (traceback.py lines 251-335).  The source line is carried
as the raw `_line` value (the linecache collaborator is external); `locals`
are already-rendered name/value string pairs. -/
structure FrameSummary where
  filename : String
  lineno : Option Nat
  name : String
  rawLine : Option String
  localsList : Option (List (String × String))
  end_lineno : Option Nat
  colno : Option Nat
  end_colno : Option Nat
deriving Repr, DecidableEq

/-- The `_original_line` property: the raw line as stored. -/
def FrameSummary.original_line (fs : FrameSummary) : Option String :=
  fs.rawLine

/-- The `line` property: dedent the stored block and strip trailing
whitespace (lines 322-335; the linecache lookup path is external and its
result is the stored rawLine). -/
def FrameSummary.lineProp (fs : FrameSummary) : Option String :=
  fs.rawLine.map (fun l => pyRstrip (dedent l))

/-! ## 4.3 Stack extraction: limit policy (lines 409-449) -/

/-- Input element of the extended frame generator: a frame handle together
with (lineno, end_lineno, colno, end_colno).  The frame carries the data
extraction reads from it (code filename / name, pre-rendered locals). -/
structure FrameInput where
  filename : String
  name : String
  locals? : Option (List (String × String))
  lineno : Option Nat
  end_lineno : Option Nat
  colno : Option Nat
  end_colno : Option Nat
deriving Repr, DecidableEq

/-- Last `k` elements of a list: collections.deque(gen, maxlen=k). -/
def lastN (k : Nat) (l : List α) : List α :=
  l.drop (l.length - k)

/-- The per-frame summarisation step of _extract_from_extended_frame_gen
(capture_locals decides whether frame locals are kept; lines are deferred,
so rawLine is none). -/
def summarizeFrame (captureLocals : Bool) (f : FrameInput) : FrameSummary :=
  { filename := f.filename
    lineno := f.lineno
    name := f.name
    rawLine := none
    localsList := if captureLocals then f.locals? else none
    end_lineno := f.end_lineno
    colno := f.colno
    end_colno := f.end_colno }

/-- StackSummary._extract_from_extended_frame_gen (lines 409-449):
the limit policy.  `tracebacklimit` models getattr(sys, "tracebacklimit",
None); it is consulted only when no explicit limit is passed, and a
negative value from it is clamped to 0.  An explicit nonnegative limit
keeps the first `limit` frames; an explicit negative limit keeps the last
`-limit` frames (deque with maxlen).  linecache refreshing and deferred
line lookup touch no frame list structure and are external. -/
def extract_from_extended_frame_gen (frames : List FrameInput)
    (limit : Option Int) (tracebacklimit : Option Int)
    (captureLocals : Bool) : List FrameSummary :=
  let limit : Option Int :=
    match limit with
    | none =>
      match tracebacklimit with
      | none => none
      | some t => if t < 0 then some 0 else some t
    | some l => some l
  let frames :=
    match limit with
    | none => frames
    | some l => if l ≥ 0 then frames.take l.toNat else lastN (-l).toNat frames
  frames.map (summarizeFrame captureLocals)

/-- C7: with an explicit limit the resulting summary never has more than
|limit| entries; an explicit negative limit keeps exactly the trailing
window of the |limit| most recent frames (the suffix, i.e. all frames when
fewer are available), and an explicit nonnegative limit keeps the first
`limit` frames. -/
theorem c7_limit_policy (frames : List FrameInput) (l : Int)
    (tbl : Option Int) (cl : Bool) :
    (extract_from_extended_frame_gen frames (some l) tbl cl).length ≤ l.natAbs ∧
    (l < 0 →
      extract_from_extended_frame_gen frames (some l) tbl cl =
        (frames.drop (frames.length - l.natAbs)).map (summarizeFrame cl)) ∧
    (0 ≤ l →
      extract_from_extended_frame_gen frames (some l) tbl cl =
        (frames.take l.toNat).map (summarizeFrame cl)) := by
  unfold extract_from_extended_frame_gen
  by_cases h : 0 ≤ l
  · refine ⟨?_, ?_, ?_⟩
    · simp only [ge_iff_le, h, if_true, List.length_map]
      have := List.length_take_le l.toNat frames
      calc (frames.take l.toNat).length ≤ l.toNat := List.length_take_le _ _
        _ = l.natAbs := by omega
    · intro hneg; omega
    · intro _; simp [h]
  · have hlt : l < 0 := by omega
    refine ⟨?_, ?_, ?_⟩
    · have hif : ¬ (l ≥ 0) := by omega
      simp only [ge_iff_le, hif, if_false, List.length_map, lastN]
      have : (-l).toNat = l.natAbs := by omega
      rw [this]
      have := List.length_drop (frames.length - l.natAbs) frames
      omega
    · intro _
      have hif : ¬ (l ≥ 0) := by omega
      simp only [ge_iff_le, hif, if_false, lastN]
      have : (-l).toNat = l.natAbs := by omega
      rw [this]
    · intro hge; omega

/-- Witness for c7_limit_policy at limit -2 over three frames. -/
theorem c7_limit_policy_witness :
    ((-2 : Int) < 0) ∧
    (extract_from_extended_frame_gen
        [⟨"a", "f", none, some 1, none, none, none⟩,
         ⟨"b", "g", none, some 2, none, none, none⟩,
         ⟨"c", "h", none, some 3, none, none, none⟩]
        (some (-2)) none false =
      ([⟨"a", "f", none, some 1, none, none, none⟩,
        ⟨"b", "g", none, some 2, none, none, none⟩,
        ⟨"c", "h", none, some 3, none, none, none⟩].drop
          (3 - (Int.natAbs (-2)))).map (summarizeFrame false)) :=
  ⟨by decide,
   (c7_limit_policy
      [⟨"a", "f", none, some 1, none, none, none⟩,
       ⟨"b", "g", none, some 2, none, none, none⟩,
       ⟨"c", "h", none, some 3, none, none, none⟩]
      (-2) none false).2.1 (by decide)⟩

/-- C10: when no explicit limit is passed and sys.tracebacklimit is
negative, the limit is clamped to 0 and the summary is empty; the trailing
window semantics is never applied to the tracebacklimit fallback. -/
theorem c10_negative_tracebacklimit (frames : List FrameInput) (t : Int)
    (cl : Bool) (ht : t < 0) :
    extract_from_extended_frame_gen frames none (some t) cl = [] := by
  unfold extract_from_extended_frame_gen
  simp only [ht, if_true]
  have h0 : ((0 : Int) ≥ 0) = True := by simp
  simp

/-- Witness for c10_negative_tracebacklimit with tracebacklimit -1. -/
theorem c10_negative_tracebacklimit_witness :
    extract_from_extended_frame_gen
      [⟨"a", "f", none, some 1, none, none, none⟩] none (some (-1)) false = [] :=
  c10_negative_tracebacklimit _ (-1) false (by decide)

/-! ## 4.4 Suggestion engine (lines 1203-1337) -/

def MAX_CANDIDATE_ITEMS : Nat := 750
def MAX_STRING_SIZE : Nat := 40
def MOVE_COST : Int := 2
def CASE_COST : Int := 1

/-- The _substitution_cost helper (lines 1209-1214). -/
def substitution_cost (chA chB : Char) : Int :=
  if chA = chB then 0
  else if chA.toLower = chB.toLower then CASE_COST
  else MOVE_COST

/-- Drop the common leading run of two character lists (the prefix
trimming loop of _levenshtein_distance). -/
def dropCommonPre : List Char → List Char → List Char × List Char
  | x :: xs, y :: ys =>
    if x = y then dropCommonPre xs ys else (x :: xs, y :: ys)
  | xs, ys => (xs, ys)

/-- One pass of the inner DP loop of _levenshtein_distance over the
characters of `a` and the current row: returns the updated row, the final
result, and the row minimum. -/
def levRow (bchar : Char) : List Char → List Int → Int → Int → Int →
    (List Int × Int × Int)
  | [], _, _, result, minimum => ([], result, minimum)
  | _ :: _, [], _, result, minimum => ([], result, minimum)
  | ach :: arest, r :: rrest, distance, result, minimum =>
    let substitute := distance + substitution_cost bchar ach
    let distance' := r
    let insert_delete := min result distance' + MOVE_COST
    let result' := min insert_delete substitute
    let minimum' := if result' < minimum then result' else minimum
    let (rr, res, mn) := levRow bchar arest rrest distance' result' minimum'
    (result' :: rr, res, mn)

/-- The outer loop of _levenshtein_distance over the characters of `b`,
with the per-row early exit when the row minimum exceeds the cap. -/
def levLoop (a : List Char) (maxCost : Int) :
    List Char → Nat → List Int → Int
  | [], _, _ => 0
  | bchar :: brest, bindex, row =>
    let distance := (bindex : Int) * MOVE_COST
    let result := (bindex : Int) * MOVE_COST
    let minimum : Int := 9223372036854775807
    let (row', result', minimum') := levRow bchar a row distance result minimum
    if minimum' > maxCost then maxCost + 1
    else
      match brest with
      | [] => result'
      | _ :: _ => levLoop a maxCost brest (bindex + 1) row'

/-- The _levenshtein_distance function (lines 1279-1337): bounded edit distance with
common affix trimming, size caps, a quick-fail length test and a
single-row DP with early exit. -/
def levenshtein_distance (a0 b0 : List Char) (maxCost : Int) : Int :=
  if a0 = b0 then 0
  else
    let (a1, b1) := dropCommonPre a0 b0
    let p := dropCommonPre a1.reverse b1.reverse
    let a2 := p.1.reverse
    let b2 := p.2.reverse
    if a2.isEmpty || b2.isEmpty then MOVE_COST * ((a2.length : Int) + b2.length)
    else if a2.length > MAX_STRING_SIZE || b2.length > MAX_STRING_SIZE then
      maxCost + 1
    else
      let a3 := if b2.length < a2.length then b2 else a2
      let b3 := if b2.length < a2.length then a2 else b2
      if ((b3.length : Int) - (a3.length : Int)) * MOVE_COST > maxCost then
        maxCost + 1
      else
        let row := (List.range a3.length).map (fun i => ((i : Int) + 1) * MOVE_COST)
        levLoop a3 maxCost b3 0 row

/-- The closest-match search of _compute_suggestion_error (lines
1253-1276); the candidate list `d` is built by external collaborators
(dir(), frame namespaces).  Note `not suggestion` in the source is a
Python falsiness test, true for both None and the empty string. -/
def compute_suggestion (wrong_name : String) (d : List String) : Option String :=
  if d.length > MAX_CANDIDATE_ITEMS then none
  else
    let wrong_name_len := wrong_name.length
    if wrong_name_len > MAX_STRING_SIZE then none
    else
      (d.foldl
        (fun (acc : Option String × Int) possible_name =>
          let suggestion := acc.1
          let best_distance := acc.2
          if possible_name = wrong_name then acc
          else
            let max_distance : Int :=
              ((possible_name.length : Int) + (wrong_name_len : Int) + 3) * MOVE_COST / 6
            let max_distance := min max_distance (best_distance - 1)
            let current_distance :=
              levenshtein_distance wrong_name.data possible_name.data max_distance
            if current_distance > max_distance then acc
            else if (suggestion.isNone || suggestion = some "") ||
                current_distance < best_distance then
              (some possible_name, current_distance)
            else acc)
        ((none : Option String), (wrong_name_len : Int))).1

/-- C8: the suggestion search never returns the wrong name itself — a
candidate equal to the wrong name is skipped. -/
theorem c8_no_exact_suggestion (wrong_name : String) (d : List String) :
    compute_suggestion wrong_name d ≠ some wrong_name := by
  unfold compute_suggestion
  split
  · simp
  · dsimp only
    split
    · simp
    · generalize hinit : ((none : Option String), ((wrong_name.length : Int))) = init
      have key : ∀ (l : List String) (acc : Option String × Int),
          acc.1 ≠ some wrong_name →
          (l.foldl
            (fun (acc : Option String × Int) possible_name =>
              let suggestion := acc.1
              let best_distance := acc.2
              if possible_name = wrong_name then acc
              else
                let max_distance : Int :=
                  ((possible_name.length : Int) + (wrong_name.length : Int) + 3) * MOVE_COST / 6
                let max_distance := min max_distance (best_distance - 1)
                let current_distance :=
                  levenshtein_distance wrong_name.data possible_name.data max_distance
                if current_distance > max_distance then acc
                else if (suggestion.isNone || suggestion = some "") ||
                    current_distance < best_distance then
                  (some possible_name, current_distance)
                else acc)
            acc).1 ≠ some wrong_name := by
        intro l
        induction l with
        | nil => intro acc h; simpa using h
        | cons x xs ih =>
          intro acc h
          rw [List.foldl_cons]
          apply ih
          by_cases hx : x = wrong_name
          · simp only [hx, if_pos rfl]; exact h
          · simp only [if_neg hx]
            split
            · exact h
            · split
              · simp only [ne_eq, Option.some.injEq]
                exact hx
              · exact h
      apply key
      rw [← hinit]
      simp

/-- C8 sanity: on the spec example, suggesting for "x" over ["x", "y"]
does not return "x" (here the distance cap rejects "y" as well, so the
result is no suggestion at all). -/
theorem c8_example_no_exact : compute_suggestion "x" ["x", "y"] = none := by decide

/-! ## Caret anchors: _extract_caret_anchors_from_line_segment (lines 652-801)

The general-purpose parser (the ast module) is an external collaborator;
its result on the wrapped segment is an input.  The model keeps only the
node shapes and positions the code reads: for the statement list, whether
the single statement is an expression, and for the expression whether it
is a binary operation, a subscript, or a call, with the position fields
consulted by the code. -/

/-- Position fields the code reads from an ast subexpression. -/
structure SubPos where
  lineno : Nat
  col_offset : Nat
  end_lineno : Nat
  end_col_offset : Nat
deriving Repr, DecidableEq

inductive PyExprKind where
  | binOp (left : SubPos) (right : SubPos)
  | subscriptE (value : SubPos)
  | callE (func : SubPos)
  | otherE
deriving Repr, DecidableEq

structure PyExpr where
  kind : PyExprKind
  end_lineno : Nat
  end_col_offset : Nat
deriving Repr, DecidableEq

inductive PyStmt where
  | exprStmt (e : PyExpr)
  | otherStmt
deriving Repr, DecidableEq

structure PyMod where
  body : List PyStmt
deriving Repr, DecidableEq

/-- String slices. -/
def strTake (s : String) (n : Nat) : String := ⟨s.data.take n⟩

def strDropChars (s : String) (n : Nat) : String := ⟨s.data.drop n⟩

def strSlice (s : String) (a b : Nat) : String := ⟨(s.data.take b).drop a⟩

def repChar (c : Char) (n : Nat) : String := ⟨List.replicate n c⟩

/-- The `normalize` helper: character index for a byte offset on a line. -/
def normalizeOff (lines : List String) (lineno off : Nat) : Nat :=
  byte_offset_to_character_offset (lines.getD lineno "") off

/-- The while loop of next_valid_char, written with structural fuel
(the loop advances lineno each step, so lines.length + 1 - lineno steps
always suffice). -/
def nextValidCharGo (lines : List String) : Nat → Nat → Nat → Nat × Nat
  | 0, lineno, col => (lineno, col)
  | fuel + 1, lineno, col =>
    if lineno < lines.length ∧ (lines.getD lineno "").length ≤ col then
      nextValidCharGo lines fuel (lineno + 1) 0
    else (lineno, col)

/-- next_valid_char (lines 704-709); the trailing assert becomes the
error case (AssertionError). -/
def next_valid_char (lines : List String) (lineno col : Nat) :
    Except Unit (Nat × Nat) :=
  let p := nextValidCharGo lines (lines.length + 1 - lineno) lineno col
  if p.1 < lines.length ∧ p.2 < (lines.getD p.1 "").length then .ok p
  else .error ()

/-- increment (lines 712-716). -/
def incrementPos (lines : List String) (lineno col : Nat) :
    Except Unit (Nat × Nat) :=
  next_valid_char lines lineno (col + 1)

/-- nextline (lines 719-724). -/
def nextlinePos (lines : List String) (lineno : Nat) (_col : Nat) :
    Except Unit (Nat × Nat) :=
  next_valid_char lines (lineno + 1) 0

/-- The loop body of increment_until with structural fuel; the position
advances strictly at every step, so the total character count of the
segment bounds the number of iterations, and fuel exhaustion (an
off-the-end walk, which in Python is the AssertionError raised inside
increment / nextline) is an error. -/
def incrementUntilGo (lines : List String) (stop : Char → Bool) :
    Nat → Nat → Nat → Except Unit (Nat × Nat)
  | 0, _, _ => .error ()
  | fuel + 1, lineno, col =>
    let ch := (lines.getD lineno "").data.getD col ' '
    if !(stop ch) || ch = '\\' || ch = '#' then
      if ch = '\\' || ch = '#' then
        match nextlinePos lines lineno col with
        | .error e => .error e
        | .ok (l, c) => incrementUntilGo lines stop fuel l c
      else
        match incrementPos lines lineno col with
        | .error e => .error e
        | .ok (l, c) => incrementUntilGo lines stop fuel l c
    else .ok (lineno, col)

/-- increment_until (lines 727-733). -/
def increment_until (lines : List String) (lineno col : Nat)
    (stop : Char → Bool) : Except Unit (Nat × Nat) :=
  incrementUntilGo lines stop
    ((lines.map (fun l => l.length + 1)).sum + 1) lineno col

/-- setup_positions (lines 738-743): -2 because end_lineno is 1-indexed
and an extra bracket line was prepended to the segment. -/
def setup_positions (lines : List String) (endLineno endCol : Nat)
    (forceValid : Bool) : Except Unit (Nat × Nat) :=
  let lineno := endLineno - 2
  let col := normalizeOff lines lineno endCol
  if forceValid then next_valid_char lines lineno col else .ok (lineno, col)

/-- The _Anchors named tuple (lines 639-650); the char defaults are the
namedtuple defaults. -/
structure Anchors where
  left_end_lineno : Nat
  left_end_offset : Nat
  right_start_lineno : Nat
  right_start_offset : Nat
  primary_char : Char := '~'
  secondary_char : Char := '^'
deriving Repr, DecidableEq

/-- The _extract_caret_anchors_from_line_segment function (lines 652-801).  `parsed`
is the result of ast.parse on the bracket-wrapped segment (none models
SyntaxError, absorbed by the try/except into no anchors); AssertionError
inside the helpers is the Except error. -/
def extract_caret_anchors_from_line_segment (parsed : Option PyMod)
    (segment : String) : Except Unit (Option Anchors) :=
  match parsed with
  | none => .ok none
  | some tree =>
    if tree.body.length ≠ 1 then .ok none
    else
      let lines := segment.splitOn "\n"
      match tree.body with
      | [PyStmt.exprStmt e] =>
        match e.kind with
        | .binOp _left right => do
          let p ← setup_positions lines _left.end_lineno _left.end_col_offset true
          let p ← increment_until lines p.1 p.2
            (fun x => !(pyIsSpace x) && x ≠ ')')
          let lineno := p.1
          let col := p.2
          let right_col := col + 1
          let right_col :=
            if right_col < (lines.getD lineno "").length
               ∧ (right.lineno - 2 > lineno ∨
                  right_col < normalizeOff lines (right.lineno - 2) right.col_offset)
               ∧ !(pyIsSpace ((lines.getD lineno "").data.getD right_col ' '))
               ∧ ((lines.getD lineno "").data.getD right_col ' ') ≠ '\\'
               ∧ ((lines.getD lineno "").data.getD right_col ' ') ≠ '#' then
              right_col + 1
            else right_col
          return some { left_end_lineno := lineno, left_end_offset := col,
                        right_start_lineno := lineno, right_start_offset := right_col }
        | .subscriptE value => do
          let l ← setup_positions lines value.end_lineno value.end_col_offset true
          let l ← increment_until lines l.1 l.2 (fun x => x = '[')
          let r ← setup_positions lines e.end_lineno e.end_col_offset false
          return some { left_end_lineno := l.1, left_end_offset := l.2,
                        right_start_lineno := r.1, right_start_offset := r.2 }
        | .callE func => do
          let l ← setup_positions lines func.end_lineno func.end_col_offset true
          let l ← increment_until lines l.1 l.2 (fun x => x = '(')
          let r ← setup_positions lines e.end_lineno e.end_col_offset false
          return some { left_end_lineno := l.1, left_end_offset := l.2,
                        right_start_lineno := r.1, right_start_offset := r.2 }
        | .otherE => .ok none
      | _ => .ok none

/-! ## _safe_string (lines 173-177) -/

/-- The _safe_string wrapper: the conversion result is an input (none models the
conversion raising); a failed conversion yields the fixed placeholder. -/
def safe_string (conv : Option String) (what : String) (funcName : String) : String :=
  match conv with
  | some s => s
  | none => "<" ++ what ++ " " ++ funcName ++ "() failed>"

/-- The try/except AssertionError around the anchor extraction in
format_frame_summary (lines 527-531): any assertion failure inside the
sub-parse is absorbed into "no anchors". -/
def anchorsAbsorbed (parsed : Option PyMod) (segment : String) : Option Anchors :=
  match extract_caret_anchors_from_line_segment parsed segment with
  | .ok a => a
  | .error _ => none

/-- C1: rendering never raises.  A failed value-to-string conversion is
replaced by the fixed placeholder (safe_string); a segment that fails to
parse (SyntaxError from ast.parse), or parses to something other than a
single binary-op / subscript / call expression, silently yields no
anchors rather than an error; and any assertion failure escaping the
anchor search is absorbed by the renderer into no anchors. -/
theorem c1_rendering_absorbs_failures :
    (∀ (what funcName : String),
      safe_string none what funcName = "<" ++ what ++ " " ++ funcName ++ "() failed>") ∧
    (∀ segment, extract_caret_anchors_from_line_segment none segment = .ok none) ∧
    (∀ (tree : PyMod) (segment : String), tree.body.length ≠ 1 →
      extract_caret_anchors_from_line_segment (some tree) segment = .ok none) ∧
    (∀ (e : PyExpr) (segment : String), e.kind = .otherE →
      extract_caret_anchors_from_line_segment (some ⟨[.exprStmt e]⟩) segment = .ok none) ∧
    (∀ segment,
      extract_caret_anchors_from_line_segment (some ⟨[.otherStmt]⟩) segment = .ok none) ∧
    (∀ (parsed : Option PyMod) (segment : String) (err : Unit),
      extract_caret_anchors_from_line_segment parsed segment = .error err →
      anchorsAbsorbed parsed segment = none) := by
  refine ⟨?_, ?_, ?_, ?_, ?_, ?_⟩
  · intro what funcName; rfl
  · intro segment; rfl
  · intro tree segment h
    simp only [extract_caret_anchors_from_line_segment]
    rw [if_pos h]
  · intro e segment h
    obtain ⟨kind, el, ec⟩ := e
    dsimp at h
    subst h
    rfl
  · intro segment
    rfl
  · intro parsed segment err h
    unfold anchorsAbsorbed
    rw [h]

/-- Witness for c1_rendering_absorbs_failures at concrete inputs. -/
theorem c1_rendering_absorbs_failures_witness :
    safe_string none "exception" "str" = "<exception str() failed>" ∧
    extract_caret_anchors_from_line_segment none "x +" = .ok none ∧
    extract_caret_anchors_from_line_segment (some ⟨[]⟩) "x +" = .ok none ∧
    extract_caret_anchors_from_line_segment
      (some ⟨[.exprStmt ⟨.otherE, 2, 1⟩]⟩) "x" = .ok none ∧
    extract_caret_anchors_from_line_segment (some ⟨[.otherStmt]⟩) "x" = .ok none :=
  ⟨c1_rendering_absorbs_failures.1 "exception" "str",
   c1_rendering_absorbs_failures.2.1 "x +",
   c1_rendering_absorbs_failures.2.2.1 ⟨[]⟩ "x +" (by decide),
   c1_rendering_absorbs_failures.2.2.2.1 ⟨.otherE, 2, 1⟩ "x" rfl,
   c1_rendering_absorbs_failures.2.2.2.2.1 "x"⟩

/-! ## StackSummary.format_frame_summary (lines 470-584) -/

/-- textwrap.indent(text, pre) with the default predicate: only lines
with non-whitespace content receive the prefix. -/
def textIndentDefault (pre : String) (s : String) : String :=
  String.join ((splitKeepEnds s).map
    (fun l => if l.data.any (fun c => !(pyIsSpace c)) then pre ++ l else l))

/-- Python str() of an optional line number (None prints as "None"). -/
def optNatStr : Option Nat → String
  | some n => toString n
  | none => "None"

/-- Stable insertion into a list sorted by the first component
(sorted(locals.items()); dict keys are unique). -/
def insertByName (x : String × String) :
    List (String × String) → List (String × String)
  | [] => [x]
  | y :: ys => if x.1 < y.1 then x :: y :: ys else y :: insertByName x ys

def sortLocals (l : List (String × String)) : List (String × String) :=
  l.foldr insertByName []

/-- Replace every tilde by a caret (marker.replace("~", "^")). -/
def tildeToCaret (s : String) : String :=
  ⟨s.data.map (fun ch => if ch = '~' then '^' else ch)⟩

/-- The caret/underline block of format_frame_summary (lines 486-578),
for a frame whose line and full column information are present.
`parse` is the external ast parser applied to the bracket-wrapped
segment. -/
def caretBlock (parse : String → Option PyMod) (fs : FrameSummary)
    (line : String) : String :=
  let colno := fs.colno.getD 0
  let end_colno := fs.end_colno.getD 0
  let origLine := (FrameSummary.original_line fs).getD ""
  let all_lines_original := pySplitlines origLine
  let start_offset0 :=
    byte_offset_to_character_offset (all_lines_original.getD 0 "") colno
  let end_offset0 :=
    byte_offset_to_character_offset
      (all_lines_original.getD (all_lines_original.length - 1) "") end_colno
  let all_lines := pySplitlines line
  let dedent_characters :=
    (all_lines_original.getD 0 "").length - (all_lines.getD 0 "").length
  let start_offset := start_offset0 - dedent_characters
  let end_offset := end_offset0 - dedent_characters
  let firstLine := all_lines.getD 0 ""
  let lastLine := all_lines.getD (all_lines.length - 1) ""
  let segMarkers :=
    if fs.lineno = fs.end_lineno then
      (strSlice firstLine start_offset end_offset,
       [repChar ' ' start_offset ++ repChar '~' (end_offset - start_offset)])
    else
      let mids := (all_lines.drop 1).dropLast
      let midPairs := mids.map (fun l =>
        let num_spaces := l.length - (pyLstrip l).length
        (l ++ "\n", repChar ' ' num_spaces ++ repChar '~' (l.length - num_spaces)))
      let num_spaces := lastLine.length - (pyLstrip lastLine).length
      (strDropChars firstLine start_offset ++ "\n" ++
         String.join (midPairs.map Prod.fst) ++ strTake lastLine end_offset,
       (repChar ' ' start_offset ++ repChar '~' (firstLine.length - start_offset)) ::
         midPairs.map Prod.snd ++
         [repChar ' ' num_spaces ++ repChar '~' (end_offset - num_spaces)])
  let segment := segMarkers.1
  let markers := segMarkers.2
  let anchors := anchorsAbsorbed (parse segment) segment
  let markersFinal : Option (List String) :=
    match anchors with
    | none =>
      if (pyLstrip (strTake firstLine start_offset)).length = 0 ∧
         (pyRstrip (strDropChars lastLine end_offset)).length = 0 then
        none
      else some (markers.map tildeToCaret)
    | some a =>
      let anchors_left_end_offset :=
        if a.left_end_lineno = 0 then a.left_end_offset + start_offset
        else a.left_end_offset
      let anchors_right_start_offset :=
        if a.right_start_lineno = 0 then a.right_start_offset + start_offset
        else a.right_start_offset
      some (markers.enum.map (fun li_m =>
        let li := li_m.1
        ⟨li_m.2.data.enum.map (fun col_ch =>
          let col := col_ch.1
          let ch := col_ch.2
          let use_secondary :=
            !(decide (li < a.left_end_lineno) ||
              decide (li = a.left_end_lineno ∧ col < anchors_left_end_offset) ||
              decide (li = a.right_start_lineno ∧ col ≥ anchors_right_start_offset) ||
              decide (li > a.right_start_lineno))
          if ch = '~' then
            if use_secondary then a.secondary_char else a.primary_char
          else ch)⟩))
  let result := String.join (all_lines.enum.map (fun i_l =>
    i_l.2 ++ "\n" ++
      (match markersFinal with
       | some ms => ms.getD i_l.1 "" ++ "\n"
       | none => "")))
  textIndentDefault "    " (dedent result)

/-- format_frame_summary (lines 470-584): the location header, the
source block (plain or with underline markers), then sorted local
variable lines. -/
def format_frame_summary (parse : String → Option PyMod)
    (fs : FrameSummary) : String :=
  let header := "  File \"" ++ fs.filename ++ "\", line " ++ optNatStr fs.lineno ++
    ", in " ++ fs.name ++ "\n"
  let body :=
    match FrameSummary.lineProp fs with
    | none => ""
    | some line =>
      if line = "" then ""
      else if fs.end_lineno.isNone || fs.colno.isNone || fs.end_colno.isNone then
        textIndentDefault "    " line ++ "\n"
      else caretBlock parse fs line
  let localsPart :=
    match fs.localsList with
    | none => ""
    | some ls =>
      if ls.isEmpty then ""
      else String.join ((sortLocals ls).map
        (fun nv => "    " ++ nv.1 ++ " = " ++ nv.2 ++ "\n"))
  header ++ body ++ localsPart

/-! ## StackSummary.format (lines 586-631): repeated-frame collapsing -/

def RECURSIVE_CUTOFF : Nat := 3

/-- The "[Previous line repeated N more time(s)]" summary line, with the
singular/plural choice of the source f-string. -/
def repeatedLine (count : Nat) : String :=
  "  [Previous line repeated " ++ toString count ++ " more time" ++
    (if count > 1 then "s" else "") ++ "]\n"

/-- The reset test of the format loop: `last_file is None or last_file !=
filename or last_line is None or last_line != lineno or last_name is None
or last_name != name`.  Note that a stored last_line of None always
compares as different, so frames without a line number never collapse. -/
def frameDiffers (last : Option (String × Option Nat × String))
    (fs : FrameSummary) : Bool :=
  match last with
  | none => true
  | some (lf, ll, ln) =>
    lf ≠ fs.filename || ll.isNone || ll ≠ fs.lineno || ln ≠ fs.name

/-- The loop of StackSummary.format (lines 598-631), with the tracked
(last_file, last_line, last_name) state and repetition count.
format_frame_summary never returns None in the base class, so the
None-continue branch is vacuous. -/
def formatLoop (parse : String → Option PyMod) :
    List FrameSummary → Option (String × Option Nat × String) → Nat → List String
  | [], _, count =>
    if count > RECURSIVE_CUTOFF then [repeatedLine (count - RECURSIVE_CUTOFF)]
    else []
  | fs :: rest, last, count =>
    let formatted := format_frame_summary parse fs
    if frameDiffers last fs then
      (if count > RECURSIVE_CUTOFF then [repeatedLine (count - RECURSIVE_CUTOFF)]
       else []) ++
      (formatted :: formatLoop parse rest (some (fs.filename, fs.lineno, fs.name)) 1)
    else
      if count + 1 > RECURSIVE_CUTOFF then formatLoop parse rest last (count + 1)
      else formatted :: formatLoop parse rest last (count + 1)

/-- StackSummary.format. -/
def stackFormat (parse : String → Option PyMod)
    (stack : List FrameSummary) : List String :=
  formatLoop parse stack none 0

theorem frameDiffers_self (f : FrameSummary) (hl : f.lineno.isSome) :
    frameDiffers (some (f.filename, f.lineno, f.name)) f = false := by
  unfold frameDiffers
  cases hx : f.lineno with
  | none => rw [hx] at hl; simp at hl
  | some l => simp [hx]

theorem formatLoop_run_inside (parse : String → Option PyMod)
    (f : FrameSummary) (hl : f.lineno.isSome) (post : List FrameSummary) :
    ∀ (N c : Nat),
      formatLoop parse (List.replicate N f ++ post)
          (some (f.filename, f.lineno, f.name)) c =
        List.replicate (min N (RECURSIVE_CUTOFF - c))
            (format_frame_summary parse f) ++
          formatLoop parse post (some (f.filename, f.lineno, f.name)) (c + N) := by
  intro N
  induction N with
  | zero => intro c; simp
  | succ M ih =>
    intro c
    rw [List.replicate_succ, List.cons_append, formatLoop]
    rw [frameDiffers_self f hl]
    simp only [Bool.false_eq_true, if_false]
    by_cases hc : c + 1 > RECURSIVE_CUTOFF
    · rw [if_pos hc]
      rw [ih (c + 1)]
      have h1 : RECURSIVE_CUTOFF - c = 0 := by
        unfold RECURSIVE_CUTOFF at *; omega
      have h2 : RECURSIVE_CUTOFF - (c + 1) = 0 := by
        unfold RECURSIVE_CUTOFF at *; omega
      rw [h1, h2]
      simp only [Nat.min_zero, List.replicate_zero, List.nil_append]
      have : c + 1 + M = c + (M + 1) := by omega
      rw [this]
    · rw [if_neg hc]
      rw [ih (c + 1)]
      have h3 : min (M + 1) (RECURSIVE_CUTOFF - c) =
          min M (RECURSIVE_CUTOFF - (c + 1)) + 1 := by
        unfold RECURSIVE_CUTOFF at *; omega
      rw [h3]
      have : c + 1 + M = c + (M + 1) := by omega
      rw [this]
      rw [List.replicate_succ, List.cons_append]

/-- C2 counterexample input: four consecutive frames identical in
(file, line, routine) whose shared line number is None.  The loop's
`last_line is None` test treats every such frame as a reset, so format()
emits four individual blocks and no summary line, where the claim
predicts three blocks plus a "1 more time" summary. -/
theorem c2_none_lineno_counterexample :
    stackFormat (fun _ => none)
        (List.replicate 4 ⟨"f.py", none, "g", none, none, none, none, none⟩) =
      List.replicate 4
        (format_frame_summary (fun _ => none)
          ⟨"f.py", none, "g", none, none, none, none, none⟩) := by
  rfl

/-- C2 (amended): for a run of N ≥ 1 consecutive frames identical in
(file, line, routine) whose line number is known (not None): format()
emits min(N, 3) individual blocks followed by a summary line stating
N - 3 further repetitions exactly when N > 3 (first conjunct: a stack
that is exactly the run; second conjunct: the loop equation for a run
embedded at any loop state whose tracked key differs from the run key;
third conjunct: the end-of-stack flush); the summary line is worded in
the singular for a count of 1 and in the plural otherwise (last two
conjuncts). -/
theorem c2_recursive_collapse (parse : String → Option PyMod)
    (f : FrameSummary) (hl : f.lineno.isSome) (N : Nat) (hN : 1 ≤ N) :
    (stackFormat parse (List.replicate N f) =
      List.replicate (min N RECURSIVE_CUTOFF) (format_frame_summary parse f) ++
        (if N > RECURSIVE_CUTOFF then [repeatedLine (N - RECURSIVE_CUTOFF)]
         else [])) ∧
    (∀ (last : Option (String × Option Nat × String)) (c : Nat)
        (post : List FrameSummary), frameDiffers last f = true →
      formatLoop parse (List.replicate N f ++ post) last c =
        (if c > RECURSIVE_CUTOFF then [repeatedLine (c - RECURSIVE_CUTOFF)]
         else []) ++
          List.replicate (min N RECURSIVE_CUTOFF) (format_frame_summary parse f) ++
          formatLoop parse post (some (f.filename, f.lineno, f.name)) N) ∧
    (∀ k, formatLoop parse [] (some k) N =
      if N > RECURSIVE_CUTOFF then [repeatedLine (N - RECURSIVE_CUTOFF)]
      else []) ∧
    repeatedLine 1 = "  [Previous line repeated 1 more time]\n" ∧
    (∀ m, 1 < m → repeatedLine m =
      "  [Previous line repeated " ++ toString m ++ " more times]\n") := by
  have entry : ∀ (last : Option (String × Option Nat × String)) (c : Nat)
      (post : List FrameSummary), frameDiffers last f = true →
      formatLoop parse (List.replicate N f ++ post) last c =
        (if c > RECURSIVE_CUTOFF then [repeatedLine (c - RECURSIVE_CUTOFF)]
         else []) ++
          List.replicate (min N RECURSIVE_CUTOFF) (format_frame_summary parse f) ++
          formatLoop parse post (some (f.filename, f.lineno, f.name)) N := by
    intro last c post hdiff
    obtain ⟨M, rfl⟩ : ∃ M, N = M + 1 := ⟨N - 1, by omega⟩
    rw [List.replicate_succ, List.cons_append, formatLoop, hdiff]
    simp only [if_true]
    rw [formatLoop_run_inside parse f hl post M 1]
    have h3 : min (M + 1) RECURSIVE_CUTOFF =
        min M (RECURSIVE_CUTOFF - 1) + 1 := by
      unfold RECURSIVE_CUTOFF; omega
    rw [h3, List.replicate_succ]
    have h1M : 1 + M = M + 1 := by omega
    rw [h1M]
    simp [List.append_assoc]
  refine ⟨?_, entry, ?_, ?_, ?_⟩
  · rw [stackFormat]
    have hdiff : frameDiffers none f = true := rfl
    have := entry none 0 [] hdiff
    rw [List.append_nil] at this
    rw [this]
    have h0 : (0 > RECURSIVE_CUTOFF) = False := by
      unfold RECURSIVE_CUTOFF; simp
    rw [if_neg (by unfold RECURSIVE_CUTOFF; omega)]
    rw [List.nil_append, formatLoop]
  · intro k
    rw [formatLoop]
  · rfl
  · intro m hm
    unfold repeatedLine
    rw [if_pos hm]
    apply congrArg String.mk
    simp [String.data_append]

/-- Witness for c2_recursive_collapse at a concrete frame and N = 5. -/
theorem c2_recursive_collapse_witness :
    stackFormat (fun _ => none)
        (List.replicate 5 ⟨"f.py", some 7, "g", none, none, none, none, none⟩) =
      List.replicate (min 5 RECURSIVE_CUTOFF)
          (format_frame_summary (fun _ => none)
            ⟨"f.py", some 7, "g", none, none, none, none, none⟩) ++
        (if 5 > RECURSIVE_CUTOFF then [repeatedLine (5 - RECURSIVE_CUTOFF)]
         else []) :=
  (c2_recursive_collapse (fun _ => none)
    ⟨"f.py", some 7, "g", none, none, none, none, none⟩ (by decide) 5
    (by decide)).1

/-! ## 4.5 Failure renderer: TracebackException -/

/-- The SyntaxError location payload captured by TracebackException.__init__
(lines 891-901): lineno/end_lineno are stored as strings. -/
structure SyntaxInfo where
  filename : Option String
  lineno : Option String
  end_lineno : Option String
  text : Option String
  offset : Option Int
  end_offset : Option Int
  msg : Option String
deriving Repr, DecidableEq

/-- The end-offset clamping of _format_syntax_error (lines 1080-1082):
None and 0 fall back to the start offset; an end equal to the start, or
-1, widens to one column. -/
def clampEndOffset (offset : Int) (endOff : Option Int) : Int :=
  let e : Int :=
    match endOff with
    | none => offset
    | some v => if v = 0 then offset else v
  if offset = e ∨ e = -1 then offset + 1 else e

/-- The caret filler of _format_syntax_error (line 1089): characters of
the stripped text before the caret column, with non-whitespace replaced
by a space and whitespace (e.g. tabs) kept for alignment. -/
def caretFiller (ltext : String) (colno : Nat) : String :=
  ⟨(ltext.data.take colno).map (fun c => if pyIsSpace c then c else ' ')⟩

/-- TracebackException._format_syntax_error (lines 1058-1092). -/
def format_syntax_error (si : SyntaxInfo) (stype : String) : List String :=
  let filename_suffix :=
    match si.lineno, si.filename with
    | some _, _ => ""
    | none, some fn => " (" ++ fn ++ ")"
    | none, none => ""
  let fileLines :=
    match si.lineno with
    | some ln =>
      let fn := match si.filename with
        | some f => if f = "" then "<string>" else f
        | none => "<string>"
      ["  File \"" ++ fn ++ "\", line " ++ ln ++ "\n"]
    | none => []
  let textLines :=
    match si.text with
    | none => []
    | some text =>
      let rtext := pyRstripSet text ['\n']
      let ltext := pyLstripSet rtext [' ', '\n', '\x0c']
      let spaces := rtext.length - ltext.length
      let echoLine := "    " ++ ltext ++ "\n"
      let caretLines :=
        match si.offset with
        | none => []
        | some offset =>
          let end_offset := clampEndOffset offset si.end_offset
          let colno : Int := offset - 1 - spaces
          let end_colno : Int := end_offset - 1 - spaces
          if colno ≥ 0 then
            ["    " ++ caretFiller ltext colno.toNat ++
              repChar '^' (end_colno - colno).toNat ++ "\n"]
          else []
      echoLine :: caretLines
  let msg := match si.msg with
    | some m => if m = "" then "<no detail available>" else m
    | none => "<no detail available>"
  fileLines ++ textLines ++ [stype ++ ": " ++ msg ++ filename_suffix ++ "\n"]

/-- The __notes__ value captured from the exception: absent, a proper
sequence of note values (each with its str() result, none = raising), or
a non-sequence value (with its repr() result). -/
inductive NotesVal where
  | noNotes
  | seqNotes (l : List (Option String))
  | otherNotes (reprResult : Option String)
deriving Repr, DecidableEq

/-- TracebackException, as captured by construction: the display name of
the exception type (None when exc_type is None; the __module__
qualification is applied at capture), the safe-stringed value, notes,
the SyntaxError payload when the type is a SyntaxError, the extracted
stack, and the chaining links. -/
inductive TE where
  | mk (stype : Option String) (strVal : String) (notes : NotesVal)
      (synInfo : Option SyntaxInfo) (stack : List FrameSummary)
      (suppress : Bool) (cause : Option TE) (context : Option TE)
      (excs : Option (List TE)) (maxGroupWidth : Nat) (maxGroupDepth : Nat)

mutual

/-- Executable node count of a TE tree, used as recursion fuel. -/
def TE.size : TE → Nat
  | .mk _ _ _ _ _ _ cause context excs _ _ =>
    1 + TE.sizeOpt cause + TE.sizeOpt context + TE.sizeOptList excs

def TE.sizeOpt : Option TE → Nat
  | none => 0
  | some t => TE.size t

def TE.sizeOptList : Option (List TE) → Nat
  | none => 0
  | some l => TE.sizeList l

def TE.sizeList : List TE → Nat
  | [] => 0
  | t :: ts => TE.size t + TE.sizeList ts

end

def TE.stype : TE → Option String | .mk s _ _ _ _ _ _ _ _ _ _ => s
def TE.strVal : TE → String | .mk _ v _ _ _ _ _ _ _ _ _ => v
def TE.notes : TE → NotesVal | .mk _ _ n _ _ _ _ _ _ _ _ => n
def TE.synInfo : TE → Option SyntaxInfo | .mk _ _ _ si _ _ _ _ _ _ _ => si
def TE.stack : TE → List FrameSummary | .mk _ _ _ _ st _ _ _ _ _ _ => st
def TE.suppress : TE → Bool | .mk _ _ _ _ _ sup _ _ _ _ _ => sup
def TE.cause : TE → Option TE | .mk _ _ _ _ _ _ c _ _ _ _ => c
def TE.context : TE → Option TE | .mk _ _ _ _ _ _ _ cx _ _ _ => cx
def TE.excs : TE → Option (List TE) | .mk _ _ _ _ _ _ _ _ e _ _ => e
def TE.maxGroupWidth : TE → Nat | .mk _ _ _ _ _ _ _ _ _ w _ => w
def TE.maxGroupDepth : TE → Nat | .mk _ _ _ _ _ _ _ _ _ _ d => d

/-- The _format_final_exc_line helper (lines 165-171) as used from
format_exception_only: the stored _str is already a string (safe-stringed
at construction), and a None exc_type prints as "None". -/
def format_final_exc_line (etype : Option String) (valuestr : String) : String :=
  let etypeStr := match etype with | some t => t | none => "None"
  if valuestr = "" then etypeStr ++ "\n"
  else etypeStr ++ ": " ++ valuestr ++ "\n"

/-- format_exception_only (lines 1013-1056), with structural fuel for
the show_group recursion into group members (each recursion step passes
a proper subterm, so sizeOf bounds the needed fuel). -/
def formatExceptionOnlyFuel : Nat → TE → Bool → Nat → List String
  | 0, _, _, _ => []
  | fuel + 1, te, showGroup, depth =>
    let indent := repChar ' ' (3 * depth)
    match te.stype with
    | none => [indent ++ format_final_exc_line none te.strVal]
    | some stype =>
      let headLines :=
        match te.synInfo with
        | none => [indent ++ format_final_exc_line (some stype) te.strVal]
        | some si => (format_syntax_error si stype).map (fun l => indent ++ l)
      let noteLines :=
        match te.notes with
        | .noNotes => []
        | .seqNotes ns =>
          (ns.map (fun n =>
            (((safe_string n "note" "str").splitOn "\n").map
              (fun l => indent ++ l ++ "\n")))).flatten
        | .otherNotes r => [indent ++ safe_string r "__notes__" "repr" ++ "\n"]
      let groupLines :=
        match te.excs, showGroup with
        | some exList, true =>
          (exList.map (fun ex =>
            formatExceptionOnlyFuel fuel ex showGroup (depth + 1))).flatten
        | _, _ => []
      headLines ++ noteLines ++ groupLines

/-- format_exception_only with adequate fuel. -/
def format_exception_only (te : TE) (showGroup : Bool) (depth : Nat) : List String :=
  formatExceptionOnlyFuel (TE.size te + 1) te showGroup depth

/-- The _ExceptionPrintContext state (lines 804-824). -/
structure PrintCtx where
  exception_group_depth : Nat
  need_close : Bool
deriving Repr, DecidableEq

def ctxIndent (ctx : PrintCtx) : String :=
  repChar ' ' (2 * ctx.exception_group_depth)

/-- The _ExceptionPrintContext.emit helper for one string (margin_char defaults to
the pipe). -/
def ctxEmitOne (ctx : PrintCtx) (marginChar : Char) (text : String) : String :=
  let indent_str := ctxIndent ctx ++
    (if ctx.exception_group_depth ≠ 0 then String.mk [marginChar] ++ " " else "")
  textIndent indent_str text

def ctxEmit (ctx : PrintCtx) (marginChar : Char) (texts : List String) :
    List String :=
  texts.map (ctxEmitOne ctx marginChar)

def cause_message : String :=
  "\nThe above exception was the direct cause of the following exception:\n\n"

def context_message : String :=
  "\nDuring handling of the above exception, another exception occurred:\n\n"

/-- The chain walk of TracebackException.format (lines 1112-1126):
the (separator-message, node) pairs, cause preferred over context,
context skipped under suppress_context. -/
def chainOut : TE → List (Option String × TE)
  | t@(.mk _ _ _ _ _ suppress cause context _ _ _) =>
    match cause with
    | some c => (some cause_message, t) :: chainOut c
    | none =>
      match context with
      | some cx =>
        if suppress then [(none, t)] else (some context_message, t) :: chainOut cx
      | none => [(none, t)]

def defaultTE : TE := .mk none "" .noNotes none [] false none none none 15 10

/-- The per-node emission of TracebackException.format (lines 1130-1192):
plain nodes emit the traceback header, the stack and the
exception-only block; group nodes apply the depth bound, then emit
numbered banners for at most max_group_width members plus a combined
"and N more exceptions" notice, threading the print context (depth and
need_close) through the recursive member calls, which are performed by
`recur`. -/
def emitNodeWith (recur : TE → PrintCtx → Bool → List String × PrintCtx)
    (parse : String → Option PyMod) (selfW selfD : Nat) (exc : TE)
    (ctx : PrintCtx) (chain : Bool) : List String × PrintCtx :=
  match exc.excs with
  | none =>
    let l1 :=
      if exc.stack ≠ [] then
        ctxEmit ctx '|' ["Traceback (most recent call last):\n"] ++
          ctxEmit ctx '|' (stackFormat parse exc.stack)
      else []
    (l1 ++ ctxEmit ctx '|' (format_exception_only exc false 0), ctx)
  | some members =>
    if ctx.exception_group_depth > selfD then
      (ctxEmit ctx '|' ["... (max_group_depth is " ++ toString selfD ++ ")\n"], ctx)
    else
      let is_toplevel := ctx.exception_group_depth = 0
      let ctx1 :=
        if is_toplevel then
          { ctx with exception_group_depth := ctx.exception_group_depth + 1 }
        else ctx
      let stackLines :=
        if exc.stack ≠ [] then
          ctxEmit ctx1 (if is_toplevel then '+' else '|')
            ["Exception Group Traceback (most recent call last):\n"] ++
            ctxEmit ctx1 '|' (stackFormat parse exc.stack)
        else []
      let headLines := ctxEmit ctx1 '|' (format_exception_only exc false 0)
      let num_excs := members.length
      let n := if num_excs ≤ selfW then num_excs else selfW + 1
      let ctx2 := { ctx1 with need_close := false }
      let loopResult := (List.range n).foldl
        (fun (acc : List String × PrintCtx) i =>
          let lines := acc.1
          let c0 := acc.2
          let last_exc := i = n - 1
          let c1 := if last_exc then { c0 with need_close := true } else c0
          let truncated := i ≥ selfW
          let title := if truncated then "..." else toString (i + 1)
          let banner := ctxIndent c1 ++ (if i = 0 then "+-" else "  ") ++
            "+---------------- " ++ title ++ " ----------------\n"
          let c2 := { c1 with exception_group_depth := c1.exception_group_depth + 1 }
          let innerRes :=
            if truncated then
              let remaining := num_excs - selfW
              let plural := if remaining > 1 then "s" else ""
              (ctxEmit c2 '|'
                ["and " ++ toString remaining ++ " more exception" ++ plural ++ "\n"],
               c2)
            else recur (members.getD i defaultTE) c2 chain
          let c3 := innerRes.2
          let closingRes :=
            if last_exc ∧ c3.need_close then
              ([ctxIndent c3 ++ "+------------------------------------\n"],
               { c3 with need_close := false })
            else ([], c3)
          let c4 := closingRes.2
          let c5 := { c4 with exception_group_depth := c4.exception_group_depth - 1 }
          (lines ++ [banner] ++ innerRes.1 ++ closingRes.1, c5))
        ([], ctx2)
      let ctxFinal :=
        if is_toplevel then { loopResult.2 with exception_group_depth := 0 }
        else loopResult.2
      (stackLines ++ headLines ++ loopResult.1, ctxFinal)

/-- TracebackException.format (lines 1094-1192) with structural fuel for
the recursion into group members; every member is a proper subterm, so
sizeOf bounds the fuel needed. -/
def formatTEFuel (parse : String → Option PyMod) :
    Nat → TE → PrintCtx → Bool → List String × PrintCtx
  | 0, _, ctx, _ => ([], ctx)
  | fuel + 1, te, ctx, chain =>
    let selfW := te.maxGroupWidth
    let selfD := te.maxGroupDepth
    let output := if chain then chainOut te else [(none, te)]
    output.reverse.foldl
      (fun (acc : List String × PrintCtx) (p : Option String × TE) =>
        let msgLines :=
          match p.1 with
          | some m => ctxEmit acc.2 '|' [m]
          | none => []
        let nodeRes :=
          emitNodeWith (formatTEFuel parse fuel) parse selfW selfD p.2 acc.2 chain
        (acc.1 ++ msgLines ++ nodeRes.1, nodeRes.2))
      ([], ctx)

/-- TracebackException.format with adequate fuel. -/
def formatTE (parse : String → Option PyMod) (te : TE) (ctx : PrintCtx)
    (chain : Bool) : List String × PrintCtx :=
  formatTEFuel parse (TE.size te + 1) te ctx chain

/-- C9 counterexample input: text "x +\n" with offset 3 and end_offset 2.
The clamps only handle end offsets of None, 0, -1 or equal to the start,
so 0 < end_offset < offset yields an empty caret run ("      \n" carries
no caret), where the claim promises a run of at least one character. -/
theorem c9_caret_counterexample :
    format_syntax_error
        ⟨some "f", some "1", none, some "x +\n", some 3, some 2, some "bad"⟩
        "SyntaxError" =
      ["  File \"f\", line 1\n", "    x +\n", "      \n",
       "SyntaxError: bad\n"] := by
  rfl

/-- C9 (amended): the spec example text "x +\n" with offset 3 and
end_offset 4 renders the echoed stripped line and a caret line with the
caret under the 3rd character; the caret run spans [offset, end_offset)
whenever end_offset exceeds offset, and is clamped to exactly one
character when end_offset is absent, 0, -1, or equal to offset (for
0 < end_offset < offset the run is empty); whitespace characters before
the caret are preserved for alignment and other characters become
spaces. -/
theorem c9_syntax_error_caret :
    (format_syntax_error
        ⟨some "f", some "1", none, some "x +\n", some 3, some 4, some "bad"⟩
        "SyntaxError" =
      ["  File \"f\", line 1\n", "    x +\n", "      ^\n",
       "SyntaxError: bad\n"]) ∧
    (∀ off : Int,
      clampEndOffset off none = off + 1 ∧
      clampEndOffset off (some 0) = off + 1 ∧
      clampEndOffset off (some (-1)) = off + 1 ∧
      clampEndOffset off (some off) = off + 1) ∧
    (∀ off e : Int, off < e → 0 < e → clampEndOffset off (some e) = e) ∧
    (∀ (ltext : String) (n i : Nat) (c : Char),
      (ltext.data.take n).get? i = some c →
      (caretFiller ltext n).data.get? i =
        some (if pyIsSpace c then c else ' ')) := by
  refine ⟨by rfl, ?_, ?_, ?_⟩
  · intro off
    refine ⟨?_, ?_, ?_, ?_⟩
    · simp [clampEndOffset]
    · simp [clampEndOffset]
    · simp [clampEndOffset]
    · by_cases h : off = 0 <;> simp [clampEndOffset, h]
  · intro off e h1 h2
    unfold clampEndOffset
    dsimp only
    have he0 : (if e = (0 : Int) then off else e) = e := by
      rw [if_neg (by omega)]
    rw [he0, if_neg (by omega)]
  · intro ltext n i c h
    unfold caretFiller
    simp only [List.get?_map, h]
    rfl

/-- Witness for c9_syntax_error_caret at concrete inputs, including tab
preservation in the filler. -/
theorem c9_syntax_error_caret_witness :
    clampEndOffset 3 (some 5) = 5 ∧
    (caretFiller "\tx +" 3).data.get? 0 = some '\t' ∧
    (caretFiller "\tx +" 3).data.get? 1 = some ' ' :=
  ⟨c9_syntax_error_caret.2.2.1 3 5 (by decide) (by decide),
   by
    have := c9_syntax_error_caret.2.2.2 "\tx +" 3 0 '\t' (by decide)
    simpa using this,
   by
    have := c9_syntax_error_caret.2.2.2 "\tx +" 3 1 'x' (by decide)
    simpa using this⟩

theorem ctxEmitOne_zero (b : Bool) (mc : Char) (t : String) :
    ctxEmitOne ⟨0, b⟩ mc t = t := by
  have h : ctxEmitOne ⟨0, b⟩ mc t = textIndent "" t := rfl
  rw [h, textIndent_empty]

theorem ctxEmit_zero (b : Bool) (mc : Char) (L : List String) :
    ctxEmit ⟨0, b⟩ mc L = L := by
  unfold ctxEmit
  have h : ∀ x ∈ L, ctxEmitOne ⟨0, b⟩ mc x = x := fun x _ => ctxEmitOne_zero b mc x
  rw [List.map_congr_left h]
  simp

/-- The block emitted for a non-group chain node at depth zero: the
traceback header and the stack when present, then the exception-only
rendering. -/
def nodeBlock (parse : String → Option PyMod) (x : TE) : List String :=
  (if x.stack ≠ [] then
    "Traceback (most recent call last):\n" :: stackFormat parse x.stack
   else []) ++ format_exception_only x false 0

/-- C3: a chain A caused-by B caused-by C with chaining enabled renders
C's block first, then the cause separator, then B's block, then another
separator, then A's block (first conjunct); when A has a simple
exception-only rendering (a named type, no notes, not a SyntaxError),
the very last line is A's message line (second conjunct); and at every
link the walk prefers cause over context and skips context under
suppress_context (remaining conjuncts). -/
theorem c3_chain_render_order (parse : String → Option PyMod) (a b c : TE)
    (ha : a.cause = some b) (hae : a.excs = none)
    (hb : b.cause = some c) (hbe : b.excs = none)
    (hc : c.cause = none) (hcc : c.context = none) (hce : c.excs = none) :
    ((formatTE parse a ⟨0, false⟩ true).1 =
      nodeBlock parse c ++ (cause_message :: nodeBlock parse b) ++
        (cause_message :: nodeBlock parse a)) ∧
    (a.notes = .noNotes → a.synInfo = none → ∀ s, a.stype = some s →
      ((formatTE parse a ⟨0, false⟩ true).1 ≠ [] ∧
        (formatTE parse a ⟨0, false⟩ true).1.getLast? =
          some (format_final_exc_line (some s) a.strVal))) ∧
    (∀ t u : TE, t.cause = some u →
      chainOut t = (some cause_message, t) :: chainOut u) ∧
    (∀ t u : TE, t.cause = none → t.context = some u → t.suppress = false →
      chainOut t = (some context_message, t) :: chainOut u) ∧
    (∀ t : TE, t.cause = none → (∀ u, t.context = some u → t.suppress = true) →
      chainOut t = [(none, t)]) := by
  have chainCause : ∀ t u : TE, t.cause = some u →
      chainOut t = (some cause_message, t) :: chainOut u := by
    intro t u h
    obtain ⟨s1, s2, s3, s4, s5, s6, cau, cx, ex, s7, s8⟩ := t
    simp only [TE.cause] at h
    subst h
    rfl
  have chainCtx : ∀ t u : TE, t.cause = none → t.context = some u →
      t.suppress = false →
      chainOut t = (some context_message, t) :: chainOut u := by
    intro t u h1 h2 h3
    obtain ⟨s1, s2, s3, s4, s5, s6, cau, cx, ex, s7, s8⟩ := t
    simp only [TE.cause] at h1
    simp only [TE.context] at h2
    simp only [TE.suppress] at h3
    subst h1; subst h2; subst h3
    rfl
  have chainEnd : ∀ t : TE, t.cause = none →
      (∀ u, t.context = some u → t.suppress = true) →
      chainOut t = [(none, t)] := by
    intro t h1 h2
    obtain ⟨s1, s2, s3, s4, s5, s6, cau, cx, ex, s7, s8⟩ := t
    simp only [TE.cause] at h1
    subst h1
    cases hcx : cx with
    | none => rw [chainOut]
    | some u =>
      have := h2 u (by simpa [TE.context, hcx])
      simp only [TE.suppress] at this
      subst this
      subst hcx
      rfl
  have hchain : chainOut a =
      (some cause_message, a) :: (some cause_message, b) :: [(none, c)] := by
    rw [chainCause a b ha, chainCause b c hb,
      chainEnd c hc (by intro u hu; rw [hcc] at hu; cases hu)]
  have hemit : ∀ (x : TE) (fuel : Nat), x.excs = none →
      emitNodeWith (formatTEFuel parse fuel) parse a.maxGroupWidth
          a.maxGroupDepth x ⟨0, false⟩ true =
        (nodeBlock parse x, ⟨0, false⟩) := by
    intro x fuel hx
    unfold emitNodeWith
    rw [hx]
    simp only [ctxEmit_zero]
    unfold nodeBlock
    split <;> rfl
  have hmain : (formatTE parse a ⟨0, false⟩ true).1 =
      nodeBlock parse c ++ (cause_message :: nodeBlock parse b) ++
        (cause_message :: nodeBlock parse a) := by
    unfold formatTE
    rw [formatTEFuel]
    simp only [if_true]
    rw [hchain]
    simp only [List.reverse_cons, List.reverse_nil, List.nil_append,
      List.cons_append, List.foldl_cons, List.foldl_nil]
    rw [hemit c _ hce]
    simp only []
    rw [ctxEmit_zero]
    rw [hemit b _ hbe]
    simp only []
    rw [ctxEmit_zero]
    rw [hemit a _ hae]
    simp [List.append_assoc]
  refine ⟨hmain, ?_, chainCause, chainCtx, chainEnd⟩
  intro hn hsi s hs
  have hind0 : ∀ t : String, repChar ' ' (3 * 0) ++ t = t := by
    intro t
    apply congrArg String.mk
    show (repChar ' ' (3 * 0) ++ t).data = t.data
    simp [repChar, String.data_append]
  have hfeo : format_exception_only a false 0 =
      [format_final_exc_line (some s) a.strVal] := by
    unfold format_exception_only
    rw [formatExceptionOnlyFuel]
    rw [hs, hsi, hn]
    dsimp only
    rw [hind0]
    simp
    intro exList hx hcontra
    exact absurd hcontra (by simp)
  constructor
  · rw [hmain]
    simp [nodeBlock, hfeo]
  · rw [hmain]
    rw [List.getLast?_append_cons]
    unfold nodeBlock
    rw [hfeo]
    rw [← List.cons_append]
    rw [List.getLast?_append_cons]
    rfl

/-- Witness for c3_chain_render_order on a concrete three-node chain. -/
theorem c3_chain_render_order_witness :
    (formatTE (fun _ => none)
        (TE.mk (some "RuntimeError") "r" .noNotes none [] false
          (some (TE.mk (some "KeyError") "k" .noNotes none [] false
            (some (TE.mk (some "ValueError") "v" .noNotes none [] false
              none none none 15 10))
            none none 15 10))
          none none 15 10)
        ⟨0, false⟩ true).1 =
      nodeBlock (fun _ => none)
          (TE.mk (some "ValueError") "v" .noNotes none [] false
            none none none 15 10) ++
        (cause_message :: nodeBlock (fun _ => none)
          (TE.mk (some "KeyError") "k" .noNotes none [] false
            (some (TE.mk (some "ValueError") "v" .noNotes none [] false
              none none none 15 10))
            none none 15 10)) ++
        (cause_message :: nodeBlock (fun _ => none)
          (TE.mk (some "RuntimeError") "r" .noNotes none [] false
            (some (TE.mk (some "KeyError") "k" .noNotes none [] false
              (some (TE.mk (some "ValueError") "v" .noNotes none [] false
                none none none 15 10))
              none none 15 10))
            none none 15 10)) :=
  (c3_chain_render_order (fun _ => none)
    (TE.mk (some "RuntimeError") "r" .noNotes none [] false
      (some (TE.mk (some "KeyError") "k" .noNotes none [] false
        (some (TE.mk (some "ValueError") "v" .noNotes none [] false
          none none none 15 10))
        none none 15 10))
      none none 15 10)
    (TE.mk (some "KeyError") "k" .noNotes none [] false
      (some (TE.mk (some "ValueError") "v" .noNotes none [] false
        none none none 15 10))
      none none 15 10)
    (TE.mk (some "ValueError") "v" .noNotes none [] false
      none none none 15 10)
    rfl rfl rfl rfl rfl rfl rfl).1

/-- A concrete simple leaf exception node. -/
def exampleLeaf : TE :=
  TE.mk (some "ValueError") "v" .noNotes none [] false none none none 15 10

/-- A concrete exception group with 20 sub-exceptions and the default
max_group_width of 15. -/
def exampleGroup20 : TE :=
  TE.mk (some "ExceptionGroup") "eg (20 sub-exceptions)" .noNotes none []
    false none none (some (List.replicate 20 exampleLeaf)) 15 10

/-- The numbered banner line emitted for the i-th sub-exception of a
top-level group (the first banner carries the +- corner). -/
def numberedBanner (i : Nat) : String :=
  (if i = 1 then "  +-" else "    ") ++ "+---------------- " ++ toString i ++
    " ----------------\n"

/-- C4: rendering a group of 20 sub-exceptions with max_group_width 15
emits exactly one numbered banner for each of the titles 1 through 15,
no numbered banner for titles 16 through 20, and exactly one combined
"and 5 more exceptions" notice; the truncation is plain output text. -/
theorem c4_group_width_truncation :
    ((List.range 20).map (fun i =>
        ((formatTE (fun _ => none) exampleGroup20 ⟨0, false⟩ true).1.count
          (numberedBanner (i + 1)))) =
      List.replicate 15 1 ++ List.replicate 5 0) ∧
    ((formatTE (fun _ => none) exampleGroup20 ⟨0, false⟩ true).1.count
      "    | and 5 more exceptions\n" = 1) := by
  constructor
  · decide
  · decide

/-! ## TracebackException.__init__ (lines 866-993): cycle handling

The exception objects form a graph: each node has optional __cause__ and
__context__ pointers, __suppress_context__, and for exception groups a
member list (the BaseExceptionGroup internals are outside this module;
spec section 3 describes sub_failures as an arbitrary sequence, so the
graph model allows any member list).  Nodes are identified by id();
the model uses indices into an environment list. -/

structure PyExcNode where
  cause : Option Nat
  context : Option Nat
  suppress : Bool
  members : Option (List Nat)
deriving Repr, DecidableEq

/-- The tree of TracebackException nodes produced by construction. -/
inductive BuiltTE where
  | mk (excId : Nat) (cause : Option BuiltTE) (context : Option BuiltTE)
      (members : Option (List BuiltTE))

def BuiltTE.excId : BuiltTE → Nat | .mk i _ _ _ => i
def BuiltTE.cause : BuiltTE → Option BuiltTE | .mk _ c _ _ => c
def BuiltTE.context : BuiltTE → Option BuiltTE | .mk _ _ cx _ => cx
def BuiltTE.members : BuiltTE → Option (List BuiltTE) | .mk _ _ _ m => m

/-- Deep completion of the group members.  The work list is popped from
the end, so the member subtrees are completed in reverse order while the
stored list keeps the original order; a failed (out-of-fuel) member
build propagates. -/
def buildMembers (recur : Nat → List Nat → Option (BuiltTE × List Nat)) :
    List Nat → List Nat → Option (List BuiltTE × List Nat)
  | [], seen => some ([], seen)
  | m :: rest, seen =>
    match recur m seen with
    | none => none
    | some (t, seen') =>
      match buildMembers recur rest seen' with
      | none => none
      | some (ts, seen'') => some (ts ++ [t], seen'')

/-- Deep completion of one optional claimed child id. -/
def deepChild (recur : Nat → List Nat → Option (BuiltTE × List Nat))
    (id? : Option Nat) (seen : List Nat) :
    Option (Option BuiltTE × List Nat) :=
  match id? with
  | none => some (none, seen)
  | some c =>
    match recur c seen with
    | none => none
    | some p => some (some p.1, p.2)

/-- Deep completion of the optional member list. -/
def deepMembers (recur : Nat → List Nat → Option (BuiltTE × List Nat))
    (ms? : Option (List Nat)) (seen : List Nat) :
    Option (Option (List BuiltTE) × List Nat) :=
  match ms? with
  | none => some (none, seen)
  | some ms =>
    match buildMembers recur ms.reverse seen with
    | none => none
    | some p => some (some p.1, p.2)

/-- Shallow creation of the cause node: claimed (its id added to _seen)
only when present and unvisited. -/
def claimCause (e : PyExcNode) (seen : List Nat) : Option Nat × List Nat :=
  match e.cause with
  | some c => if seen.contains c then (none, seen) else (some c, c :: seen)
  | none => (none, seen)

/-- Shallow creation of the context node, subject to the compact
need_context rule. -/
def claimContext (need_context : Bool) (e : PyExcNode) (seen1 : List Nat) :
    Option Nat × List Nat :=
  match e.context with
  | some cx =>
    if need_context && !(seen1.contains cx) then (some cx, cx :: seen1)
    else (none, seen1)
  | none => (none, seen1)

/-- Shallow creation of the group members: every member id is added,
with no visited check. -/
def claimMembers (e : PyExcNode) (seen2 : List Nat) :
    Option (List Nat) × List Nat :=
  match e.members with
  | some ms => (some ms, ms.foldl (fun s m => m :: s) seen2)
  | none => (none, seen2)

/-- The deep-completion tail of one work-list step: members (in reverse
pop order), then context, then cause, then the assembled node. -/
def buildRest (recur : Nat → List Nat → Option (BuiltTE × List Nat))
    (causeId? ctxId? : Option Nat) (mem? : Option (List Nat)) (i : Nat)
    (seen3 : List Nat) : Option (BuiltTE × List Nat) :=
  match deepMembers recur mem? seen3 with
  | none => none
  | some (memTrees, seen4) =>
    match deepChild recur ctxId? seen4 with
    | none => none
    | some (ctxTree, seen5) =>
      match deepChild recur causeId? seen5 with
      | none => none
      | some (causeTree, seen6) =>
        some (.mk i causeTree ctxTree memTrees, seen6)

/-- TracebackException.__init__ construction of one already-claimed node
(its id is in `seen`), faithful to the top-level work-list loop (lines
928-993) executed in LIFO order: on popping a node, the cause is
shallow-built if present and unvisited (claiming its id), then the
context (subject to the compact need_context rule), then every group
member unconditionally — there is no visited check for members; the
subtrees are then completed in pop order (members in reverse, context,
cause).  Fuel exhaustion models non-termination: the real loop runs
forever exactly where every fuel runs out. -/
def buildFuel (env : List PyExcNode) (compact : Bool) :
    Nat → Nat → List Nat → Option (BuiltTE × List Nat)
  | 0, _, _ => none
  | fuel + 1, i, seen =>
    match env.get? i with
    | none => some (.mk i none none none, seen)
    | some e =>
      let causeClaim := claimCause e seen
      let need_context :=
        if compact then causeClaim.1.isNone && !e.suppress else true
      let ctxClaim := claimContext need_context e causeClaim.2
      let memClaim := claimMembers e ctxClaim.2
      buildRest (buildFuel env compact fuel) causeClaim.1 ctxClaim.1
        memClaim.1 i memClaim.2

/-- Top-level construction: the root id is claimed on entry
(_seen.add(id(exc_value))), then the work list runs. -/
def buildTE (env : List PyExcNode) (compact : Bool) (fuel root : Nat) :
    Option (BuiltTE × List Nat) :=
  buildFuel env compact fuel root [root]

/-- Construction terminates when some fuel suffices. -/
def ConstructionTerminates (env : List PyExcNode) (compact : Bool)
    (root : Nat) : Prop :=
  ∃ fuel, (buildTE env compact fuel root).isSome

theorem nat_contains_iff (l : List Nat) (x : Nat) :
    l.contains x = true ↔ x ∈ l := by
  induction l with
  | nil => simp
  | cons a as ih => simp

theorem subset_foldl_cons (ms : List Nat) :
    ∀ s : List Nat, s ⊆ ms.foldl (fun s m => m :: s) s := by
  induction ms with
  | nil => intro s x hx; exact hx
  | cons m rest ih =>
    intro s x hx
    exact ih (m :: s) (List.mem_cons_of_mem _ hx)

/-- All ids reachable as one-step pointers from the environment. -/
def envTargets (env : List PyExcNode) : List Nat :=
  (env.map (fun e => e.cause.toList ++ e.context.toList ++
    (match e.members with | some ms => ms | none => []))).flatten

/-- Number of environment pointer targets not yet claimed. -/
def unclaimed (env : List PyExcNode) (seen : List Nat) : Nat :=
  ((envTargets env).filter (fun t => !(seen.contains t))).length

theorem cause_mem_targets (env : List PyExcNode) (i : Nat) (e : PyExcNode)
    (c : Nat) (he : env.get? i = some e) (hc : e.cause = some c) :
    c ∈ envTargets env := by
  have hmem : e ∈ env := List.get?_mem he
  unfold envTargets
  refine List.mem_flatten.mpr ⟨_, List.mem_map_of_mem _ hmem, ?_⟩
  simp [hc]

theorem context_mem_targets (env : List PyExcNode) (i : Nat) (e : PyExcNode)
    (cx : Nat) (he : env.get? i = some e) (hcx : e.context = some cx) :
    cx ∈ envTargets env := by
  have hmem : e ∈ env := List.get?_mem he
  unfold envTargets
  refine List.mem_flatten.mpr ⟨_, List.mem_map_of_mem _ hmem, ?_⟩
  simp [hcx]

theorem filter_len_mono (L : List Nat) (s s' : List Nat) (h : s ⊆ s') :
    (L.filter (fun t => !(s'.contains t))).length ≤
      (L.filter (fun t => !(s.contains t))).length := by
  induction L with
  | nil => simp
  | cons a rest ih =>
    rw [List.filter_cons, List.filter_cons]
    by_cases ha : s.contains a = true
    · have ha' : s'.contains a = true := by
        rw [nat_contains_iff] at ha ⊢
        exact h ha
      simp only [ha, ha', Bool.not_true, Bool.false_eq_true, if_false]
      exact ih
    · have ha0 : s.contains a = false := by
        cases hb : s.contains a
        · rfl
        · exact absurd hb ha
      cases ha' : s'.contains a
      · simp only [ha0, ha', Bool.not_false, if_true, List.length_cons]
        omega
      · simp only [ha0, ha', Bool.not_true, Bool.not_false, if_true,
          Bool.false_eq_true, if_false, List.length_cons]
        omega

theorem filter_len_strict (L : List Nat) (s s' : List Nat) (t : Nat)
    (hL : t ∈ L) (hs : s.contains t = false) (hs' : s'.contains t = true)
    (h : s ⊆ s') :
    (L.filter (fun x => !(s'.contains x))).length <
      (L.filter (fun x => !(s.contains x))).length := by
  induction L with
  | nil => cases hL
  | cons a rest ih =>
    rw [List.filter_cons, List.filter_cons]
    by_cases hat : a = t
    · subst hat
      simp only [hs, hs', Bool.not_true, Bool.not_false, if_true,
        Bool.false_eq_true, if_false, List.length_cons]
      have := filter_len_mono rest s s' h
      omega
    · have hL' : t ∈ rest := by
        cases List.mem_cons.mp hL with
        | inl hh => exact absurd hh.symm hat
        | inr hh => exact hh
      have hrec := ih hL'
      by_cases ha : s.contains a = true
      · have ha' : s'.contains a = true := by
          rw [nat_contains_iff] at ha ⊢
          exact h ha
        simp only [ha, ha', Bool.not_true, Bool.false_eq_true, if_false]
        exact hrec
      · have ha0 : s.contains a = false := by
          cases hb : s.contains a
          · rfl
          · exact absurd hb ha
        cases ha' : s'.contains a
        · simp only [ha0, ha', Bool.not_false, if_true, List.length_cons]
          omega
        · simp only [ha0, ha', Bool.not_true, Bool.not_false, if_true,
            Bool.false_eq_true, if_false, List.length_cons]
          omega

theorem unclaimed_mono (env : List PyExcNode) (s s' : List Nat) (h : s ⊆ s') :
    unclaimed env s' ≤ unclaimed env s :=
  filter_len_mono (envTargets env) s s' h

theorem unclaimed_strict (env : List PyExcNode) (s s' : List Nat) (t : Nat)
    (hT : t ∈ envTargets env) (hs : s.contains t = false)
    (hs' : s'.contains t = true) (h : s ⊆ s') :
    unclaimed env s' < unclaimed env s :=
  filter_len_strict (envTargets env) s s' t hT hs hs' h

theorem buildMembers_mono
    (recur : Nat → List Nat → Option (BuiltTE × List Nat))
    (hrec : ∀ m seen out, recur m seen = some out → seen ⊆ out.2) :
    ∀ (ms : List Nat) (seen : List Nat) (out : List BuiltTE × List Nat),
      buildMembers recur ms seen = some out → seen ⊆ out.2 := by
  intro ms
  induction ms with
  | nil =>
    intro seen out h
    rw [buildMembers] at h
    injection h with h
    subst h
    exact fun x hx => hx
  | cons m rest ih =>
    intro seen out h
    rw [buildMembers] at h
    cases hr : recur m seen with
    | none => rw [hr] at h; cases h
    | some p =>
      obtain ⟨t, s1⟩ := p
      rw [hr] at h
      dsimp only at h
      cases hb : buildMembers recur rest s1 with
      | none => rw [hb] at h; cases h
      | some q =>
        obtain ⟨ts, s2⟩ := q
        rw [hb] at h
        dsimp only at h
        injection h with h
        subst h
        exact fun x hx => ih s1 (ts, s2) hb (hrec m seen (t, s1) hr hx)

theorem deepChild_mono
    (recur : Nat → List Nat → Option (BuiltTE × List Nat))
    (hrec : ∀ m seen out, recur m seen = some out → seen ⊆ out.2)
    (id? : Option Nat) (seen : List Nat) (out : Option BuiltTE × List Nat)
    (h : deepChild recur id? seen = some out) : seen ⊆ out.2 := by
  cases id? with
  | none =>
    rw [deepChild] at h
    injection h with h
    subst h
    exact fun x hx => hx
  | some c =>
    rw [deepChild] at h
    cases hr : recur c seen with
    | none => rw [hr] at h; cases h
    | some p =>
      rw [hr] at h
      dsimp only at h
      injection h with h
      subst h
      exact hrec c seen p hr

theorem deepMembers_mono
    (recur : Nat → List Nat → Option (BuiltTE × List Nat))
    (hrec : ∀ m seen out, recur m seen = some out → seen ⊆ out.2)
    (ms? : Option (List Nat)) (seen : List Nat)
    (out : Option (List BuiltTE) × List Nat)
    (h : deepMembers recur ms? seen = some out) : seen ⊆ out.2 := by
  cases ms? with
  | none =>
    rw [deepMembers] at h
    injection h with h
    subst h
    exact fun x hx => hx
  | some ms =>
    rw [deepMembers] at h
    cases hb : buildMembers recur ms.reverse seen with
    | none => rw [hb] at h; cases h
    | some p =>
      rw [hb] at h
      dsimp only at h
      injection h with h
      subst h
      exact buildMembers_mono recur hrec ms.reverse seen p hb

theorem buildRest_mono
    (recur : Nat → List Nat → Option (BuiltTE × List Nat))
    (hrec : ∀ m seen out, recur m seen = some out → seen ⊆ out.2)
    (causeId? ctxId? : Option Nat) (mem? : Option (List Nat)) (i : Nat)
    (seen3 : List Nat) (out : BuiltTE × List Nat)
    (h : buildRest recur causeId? ctxId? mem? i seen3 = some out) :
    seen3 ⊆ out.2 := by
  rw [buildRest] at h
  cases hm : deepMembers recur mem? seen3 with
  | none => rw [hm] at h; cases h
  | some p =>
    obtain ⟨memTrees, seen4⟩ := p
    rw [hm] at h
    dsimp only at h
    cases hc : deepChild recur ctxId? seen4 with
    | none => rw [hc] at h; cases h
    | some q =>
      obtain ⟨ctxTree, seen5⟩ := q
      rw [hc] at h
      dsimp only at h
      cases hd : deepChild recur causeId? seen5 with
      | none => rw [hd] at h; cases h
      | some r =>
        obtain ⟨causeTree, seen6⟩ := r
        rw [hd] at h
        dsimp only at h
        injection h with h
        subst h
        intro x hx
        exact deepChild_mono recur hrec causeId? seen5 (causeTree, seen6) hd
          (deepChild_mono recur hrec ctxId? seen4 (ctxTree, seen5) hc
            (deepMembers_mono recur hrec mem? seen3 (memTrees, seen4) hm hx))

theorem claimCause_sub (e : PyExcNode) (seen : List Nat) :
    seen ⊆ (claimCause e seen).2 := by
  unfold claimCause
  cases e.cause with
  | none => exact fun _ hx => hx
  | some c =>
    dsimp only
    split
    · exact fun _ hx => hx
    · exact fun _ hx => List.mem_cons_of_mem _ hx

theorem claimContext_sub (nc : Bool) (e : PyExcNode) (seen1 : List Nat) :
    seen1 ⊆ (claimContext nc e seen1).2 := by
  unfold claimContext
  cases e.context with
  | none => exact fun _ hx => hx
  | some cx =>
    dsimp only
    split
    · exact fun _ hx => List.mem_cons_of_mem _ hx
    · exact fun _ hx => hx

theorem claimMembers_sub (e : PyExcNode) (seen2 : List Nat) :
    seen2 ⊆ (claimMembers e seen2).2 := by
  unfold claimMembers
  cases e.members with
  | none => exact fun _ hx => hx
  | some ms =>
    dsimp only
    exact subset_foldl_cons ms seen2

theorem buildFuel_mono (env : List PyExcNode) (compact : Bool) :
    ∀ fuel i seen out,
      buildFuel env compact fuel i seen = some out → seen ⊆ out.2 := by
  intro fuel
  induction fuel with
  | zero => intro i seen out h; cases h
  | succ g ih =>
    intro i seen out h
    rw [buildFuel] at h
    cases he : env.get? i with
    | none =>
      rw [he] at h
      injection h with h
      subst h
      exact fun _ hx => hx
    | some e =>
      rw [he] at h
      dsimp only at h
      intro x hx
      refine buildRest_mono (buildFuel env compact g) (fun m s o hmo => ih m s o hmo)
        _ _ _ i _ out h ?_
      exact claimMembers_sub e _ (claimContext_sub _ e _ (claimCause_sub e seen hx))

theorem claimCause_claimed (env : List PyExcNode) (compact : Bool)
    (i : Nat) (e : PyExcNode) (seen : List Nat) (c : Nat)
    (he : env.get? i = some e) (hc : (claimCause e seen).1 = some c) :
    c ∈ envTargets env ∧ seen.contains c = false ∧ c ∈ (claimCause e seen).2 := by
  unfold claimCause at hc ⊢
  cases hec : e.cause with
  | none =>
    rw [hec] at hc
    dsimp only at hc
    cases hc
  | some c0 =>
    rw [hec] at hc
    dsimp only at hc
    by_cases hcc : seen.contains c0 = true
    · rw [if_pos hcc] at hc; cases hc
    · rw [if_neg hcc] at hc
      dsimp only at hc
      injection hc with hc
      subst hc
      dsimp only
      rw [if_neg hcc]
      refine ⟨cause_mem_targets env i e c0 he hec, ?_, List.mem_cons_self c0 seen⟩
      cases hb : seen.contains c0
      · rfl
      · exact absurd hb hcc

theorem claimContext_claimed (env : List PyExcNode) (nc : Bool)
    (i : Nat) (e : PyExcNode) (seen1 : List Nat) (cx : Nat)
    (he : env.get? i = some e) (hcx : (claimContext nc e seen1).1 = some cx) :
    cx ∈ envTargets env ∧ seen1.contains cx = false ∧
      cx ∈ (claimContext nc e seen1).2 := by
  unfold claimContext at hcx ⊢
  cases hec : e.context with
  | none =>
    rw [hec] at hcx
    dsimp only at hcx
    cases hcx
  | some cx0 =>
    rw [hec] at hcx
    dsimp only at hcx
    by_cases hcc : (nc && !(seen1.contains cx0)) = true
    · rw [if_pos hcc] at hcx
      dsimp only at hcx
      injection hcx with hcx
      subst hcx
      dsimp only
      rw [if_pos hcc]
      refine ⟨context_mem_targets env i e cx0 he hec, ?_, List.mem_cons_self cx0 seen1⟩
      have hand := (Bool.and_eq_true _ _).mp hcc
      have h2 := hand.2
      cases hb : seen1.contains cx0
      · rfl
      · rw [hb] at h2; cases h2
    · rw [if_neg hcc] at hcx; cases hcx

theorem buildRest_total_noMembers
    (recur : Nat → List Nat → Option (BuiltTE × List Nat))
    (hrecMono : ∀ m s out, recur m s = some out → s ⊆ out.2)
    (P : List Nat → Prop)
    (hrecTotal : ∀ m s, P s → (recur m s).isSome)
    (causeId? ctxId? : Option Nat) (i : Nat) (seen3 : List Nat)
    (hctxP : ∀ cx, ctxId? = some cx → P seen3)
    (hcauseP : ∀ c, causeId? = some c → ∀ s', seen3 ⊆ s' → P s') :
    (buildRest recur causeId? ctxId? none i seen3).isSome := by
  rw [buildRest]
  rw [show deepMembers recur none seen3 = some (none, seen3) from rfl]
  dsimp only
  cases ctxId? with
  | none =>
    rw [show deepChild recur none seen3 = some (none, seen3) from rfl]
    dsimp only
    cases hcid : causeId? with
    | none =>
      rw [show deepChild recur none seen3 = some (none, seen3) from rfl]
      simp
    | some c =>
      have hP := hcauseP c hcid seen3 (fun _ hx => hx)
      have := hrecTotal c seen3 hP
      rw [deepChild]
      cases hb : recur c seen3 with
      | none => rw [hb] at this; cases this
      | some p => simp
  | some cx =>
    have hP := hctxP cx rfl
    have hsome := hrecTotal cx seen3 hP
    rw [deepChild]
    cases hb : recur cx seen3 with
    | none => rw [hb] at hsome; cases hsome
    | some p =>
      dsimp only
      cases hcid : causeId? with
      | none =>
        rw [show deepChild recur none p.2 = some (none, p.2) from rfl]
        simp
      | some c =>
        have hsub : seen3 ⊆ p.2 := hrecMono cx seen3 p hb
        have hP2 := hcauseP c hcid p.2 hsub
        have hsome2 := hrecTotal c p.2 hP2
        rw [deepChild]
        cases hb2 : recur c p.2 with
        | none => rw [hb2] at hsome2; cases hsome2
        | some q => simp

/-- Termination of construction for group-free environments: with fuel
exceeding the number of unclaimed pointer targets, every build succeeds.
Each recursive completion is guarded by a fresh claim into the visited
set, so the measure strictly decreases. -/
theorem buildFuel_total (env : List PyExcNode) (compact : Bool)
    (hgf : ∀ e ∈ env, e.members = none) :
    ∀ fuel i seen, unclaimed env seen < fuel →
      (buildFuel env compact fuel i seen).isSome := by
  intro fuel
  induction fuel with
  | zero => intro i seen h; omega
  | succ g ih =>
    intro i seen hless
    rw [buildFuel]
    cases he : env.get? i with
    | none => simp
    | some e =>
      dsimp only
      have hm : e.members = none := hgf e (List.get?_mem he)
      have hcm : ∀ s, claimMembers e s = (none, s) := by
        intro s
        unfold claimMembers
        rw [hm]
      rw [hcm]
      set nc := (if compact then (claimCause e seen).1.isNone && !e.suppress else true) with hnc
      have hsub12 : seen ⊆ (claimContext nc e (claimCause e seen).2).2 :=
        fun x hx => claimContext_sub nc e _ (claimCause_sub e seen hx)
      apply buildRest_total_noMembers (buildFuel env compact g)
        (fun m s o hmo => buildFuel_mono env compact g m s o hmo)
        (fun s => unclaimed env s < g)
      · -- the recursion succeeds below the measure
        intro m s hPs
        exact ih m s hPs
      · -- context claim gives a strict decrease already at seen3
        intro cx hcx
        obtain ⟨hT, hfree, hmem⟩ :=
          claimContext_claimed env nc i e (claimCause e seen).2 cx he hcx
        have hfree0 : seen.contains cx = false := by
          cases hb : seen.contains cx
          · rfl
          · have : cx ∈ (claimCause e seen).2 :=
              claimCause_sub e seen (by rw [← nat_contains_iff]; exact hb)
            rw [← nat_contains_iff] at this
            rw [this] at hfree
            cases hfree
        have hstrict : unclaimed env (claimContext nc e (claimCause e seen).2).2 <
            unclaimed env seen := by
          apply unclaimed_strict env seen _ cx hT hfree0
          · rw [nat_contains_iff]
            exact hmem
          · exact hsub12
        dsimp only
        omega
      · -- cause claim gives a strict decrease at any superset of seen3
        intro c hc s' hs'
        obtain ⟨hT, hfree, hmem⟩ := claimCause_claimed env compact i e seen c he hc
        have hmem' : c ∈ s' := hs' (claimContext_sub nc e _ hmem)
        have hstrict : unclaimed env s' < unclaimed env seen := by
          apply unclaimed_strict env seen s' c hT hfree
          · rw [nat_contains_iff]
            exact hmem'
          · exact fun x hx => hs' (hsub12 hx)
        omega

theorem buildRest_cause_none
    (recur : Nat → List Nat → Option (BuiltTE × List Nat))
    (ctxId? : Option Nat) (mem? : Option (List Nat)) (i : Nat)
    (seen3 : List Nat) (out : BuiltTE × List Nat)
    (h : buildRest recur none ctxId? mem? i seen3 = some out) :
    out.1.cause = none := by
  rw [buildRest] at h
  cases hm : deepMembers recur mem? seen3 with
  | none => rw [hm] at h; cases h
  | some p =>
    obtain ⟨memTrees, seen4⟩ := p
    rw [hm] at h
    dsimp only at h
    cases hc : deepChild recur ctxId? seen4 with
    | none => rw [hc] at h; cases h
    | some q =>
      obtain ⟨ctxTree, seen5⟩ := q
      rw [hc] at h
      dsimp only at h
      rw [show deepChild recur none seen5 = some (none, seen5) from rfl] at h
      dsimp only at h
      injection h with h
      subst h
      rfl

/-- A cause pointing at an already-visited exception is treated as
absent in the constructed node. -/
theorem buildFuel_visited_cause_absent (env : List PyExcNode)
    (compact : Bool) (fuel i : Nat) (seen : List Nat) (e : PyExcNode)
    (c : Nat) (out : BuiltTE × List Nat)
    (he : env.get? i = some e) (hc : e.cause = some c)
    (hcs : seen.contains c = true)
    (hb : buildFuel env compact (fuel + 1) i seen = some out) :
    out.1.cause = none := by
  rw [buildFuel] at hb
  rw [he] at hb
  dsimp only at hb
  have hclaim : claimCause e seen = (none, seen) := by
    unfold claimCause
    rw [hc]
    dsimp only
    rw [if_pos hcs]
  rw [hclaim] at hb
  exact buildRest_cause_none _ _ _ i _ out hb

/-- C6 counterexample input: a single exception group whose member list
contains the group itself.  The work-list loop rebuilds group members
with no visited-identity check (lines 968-981 have no _seen test), so
construction loops forever: every fuel bound is exhausted. -/
theorem c6_member_cycle_counterexample :
    ¬ ConstructionTerminates [⟨none, none, false, some [0]⟩] false 0 := by
  rintro ⟨fuel, hf⟩
  have key : ∀ f seen,
      buildFuel [⟨none, none, false, some [0]⟩] false f 0 seen = none := by
    intro f
    induction f with
    | zero => intro seen; rfl
    | succ g ih =>
      intro seen
      rw [buildFuel]
      rw [show ([(⟨none, none, false, some [0]⟩ : PyExcNode)]).get? 0 =
            some ⟨none, none, false, some [0]⟩ from rfl]
      dsimp only
      rw [show claimCause ⟨none, none, false, some [0]⟩ seen = (none, seen)
            from rfl]
      dsimp only
      rw [if_neg (show ¬(false = true) by decide)]
      rw [show claimContext true ⟨none, none, false, some [0]⟩ seen =
            (none, seen) from rfl]
      dsimp only
      rw [show claimMembers ⟨none, none, false, some [0]⟩ seen =
            (some [0], 0 :: seen) from rfl]
      have hdm : deepMembers
          (buildFuel [(⟨none, none, false, some [0]⟩ : PyExcNode)] false g)
          (some [0]) (0 :: seen) = none := by
        unfold deepMembers
        dsimp only
        rw [show ([0] : List Nat).reverse = [0] from rfl]
        unfold buildMembers
        rw [ih (0 :: seen)]
      rw [buildRest]
      rw [hdm]
  rw [buildTE] at hf
  rw [key fuel [0]] at hf
  simp at hf

/-- C6 (amended): construction terminates for every cyclic or
self-referential cause/context graph — for any group-free environment
some fuel makes the build succeed, because cause and context are only
rebuilt after claiming a fresh id in the visited set (first conjunct);
a cause pointing at an already-visited exception is treated as absent
in the constructed node (second conjunct); in particular the
self-referential chain A.cause = A builds a tree whose cause is absent
(third conjunct).  Group member lists, by contrast, are rebuilt without
a visited check, so termination for groups relies on member graphs being
acyclic (see the counterexample). -/
theorem c6_construction_terminates :
    (∀ (env : List PyExcNode) (compact : Bool) (root : Nat),
      (∀ e ∈ env, e.members = none) →
      ConstructionTerminates env compact root) ∧
    (∀ (env : List PyExcNode) (compact : Bool) (fuel i : Nat)
        (seen : List Nat) (e : PyExcNode) (c : Nat)
        (out : BuiltTE × List Nat),
      env.get? i = some e → e.cause = some c → seen.contains c = true →
      buildFuel env compact (fuel + 1) i seen = some out →
      out.1.cause = none) ∧
    (buildTE [⟨some 0, none, false, none⟩] false 1 0 =
      some (.mk 0 none none none, [0])) := by
  refine ⟨?_, ?_, rfl⟩
  · intro env compact root hgf
    refine ⟨unclaimed env [root] + 1, ?_⟩
    exact buildFuel_total env compact hgf (unclaimed env [root] + 1) root [root]
      (by omega)
  · intro env compact fuel i seen e c out he hc hcs hb
    exact buildFuel_visited_cause_absent env compact fuel i seen e c out
      he hc hcs hb

/-- Witness for c6_construction_terminates at the self-cause chain. -/
theorem c6_construction_terminates_witness :
    ConstructionTerminates [⟨some 0, none, false, none⟩] false 0 ∧
    ((BuiltTE.mk 0 none none none, ([0] : List Nat)).1.cause = none) :=
  ⟨c6_construction_terminates.1 [⟨some 0, none, false, none⟩] false 0
    (by intro e he; simp at he; subst he; rfl),
   c6_construction_terminates.2.1 [⟨some 0, none, false, none⟩] false 0 0 [0]
    ⟨some 0, none, false, none⟩ 0 (BuiltTE.mk 0 none none none, [0])
    rfl rfl rfl rfl⟩
